import Mathlib

/-!
Shallow embedding of `install-bridge.js`, the After Effects MCP bridge
installer.  The script is a one-shot CLI program: it resolves candidate
After Effects installation roots for the running platform, locates the
first existing root, validates the build artifact, ensures the destination
directory, and copies the artifact with a platform-specific elevation
fallback.

The embedding models the filesystem as an explicit state (`FileSys`:
existing directories plus a path-to-content file store), external
failure modes as boolean oracles (`Oracles`: whether `mkdirSync`,
`fs.copyFileSync`, and the two `execSync` subordinate invocations
succeed — for `execSync`, "succeeds" means the subordinate process
exits with status 0, which is the only thing the script observes since
it runs with inherited stdio and branches solely on throw/no-throw),
and the observable behaviour of a run as a trace of events
(`Ev`: filesystem probes, mutations, subordinate-process invocations and
console lines) together with the process exit code and the final
filesystem state.  Sequential trace order models Node's synchronous
(`*Sync` / `execSync`) execution: each event completes before the next
begins.
-/

namespace InstallBridge

/-- The process platform identifier, as dispatched on by the script:
`process.platform === 'win32'`, `'darwin'`, or anything else. -/
inductive Platform
  | win32
  | darwin
  | otherOS
deriving DecidableEq, Repr

/-- The path separator `path.join` uses on each platform. -/
def sep : Platform → String
  | .win32 => "\\"
  | _ => "/"

/-- The path separator as a single character (both platforms use a
one-character separator). -/
def sepChar : Platform → Char
  | .win32 => '\\'
  | _ => '/'

/-- `path.join` on the segments the script ever joins (no `..`/`.`
segments occur, so joining is plain separator interleaving). -/
def pathJoin (plat : Platform) (parts : List String) : String :=
  String.intercalate (sep plat) parts

/-- `getPossibleAfterEffectsPaths()` from the source: the hardcoded
candidate installation roots, newest first; empty on any platform other
than win32/darwin. -/
def getPossibleAfterEffectsPaths : Platform → List String
  | .win32 =>
    [ "C:\\Program Files\\Adobe\\Adobe After Effects 2025",
      "C:\\Program Files\\Adobe\\Adobe After Effects 2024",
      "C:\\Program Files\\Adobe\\Adobe After Effects 2023",
      "C:\\Program Files\\Adobe\\Adobe After Effects 2022",
      "C:\\Program Files\\Adobe\\Adobe After Effects 2021" ]
  | .darwin =>
    [ "/Applications/Adobe After Effects 2025",
      "/Applications/Adobe After Effects 2024",
      "/Applications/Adobe After Effects 2023",
      "/Applications/Adobe After Effects 2022",
      "/Applications/Adobe After Effects 2021" ]
  | .otherOS => []

/-- Observable events of a run: filesystem probes (`fs.existsSync`),
directory creation (`fs.mkdirSync` with `recursive: true`), in-process
file copy (`fs.copyFileSync`), a synchronous subordinate process
invocation (`execSync`, recording the exact command line), and console
output (`console.log` / `console.error`). -/
inductive Ev
  | existsCheck (p : String)
  | mkdirRec (p : String)
  | copyFile (src dst : String)
  | execCmd (cmd : String)
  | logOut (s : String)
  | logErr (s : String)
deriving DecidableEq, Repr

/-- The filesystem state: the set of existing directories and the file
store mapping paths to byte contents (modelled as strings). -/
structure FileSys where
  dirs : List String
  files : List (String × String)
deriving DecidableEq, Repr

/-- Association-list lookup for the file store (newest entry wins). -/
def lookupFile : List (String × String) → String → Option String
  | [], _ => none
  | e :: rest, p => if e.1 = p then some e.2 else lookupFile rest p

/-- Content of the file at `p`, if a file exists there. -/
def FileSys.readFile (fs : FileSys) (p : String) : Option String :=
  lookupFile fs.files p

/-- `fs.existsSync`: the path names an existing directory or file. -/
def FileSys.existsSync (fs : FileSys) (p : String) : Bool :=
  (fs.dirs.any fun d => decide (d = p)) || (fs.files.any fun e => decide (e.1 = p))

/-- Split a character list at every occurrence of the separator
character (the list-level counterpart of `String.splitOn` for a
one-character separator). -/
def splitOnChar (sepc : Char) : List Char → List (List Char)
  | [] => [[]]
  | c :: cs =>
    if c = sepc then [] :: splitOnChar sepc cs
    else
      match splitOnChar sepc cs with
      | [] => [[c]]
      | h :: t => (c :: h) :: t

/-- Interleave the separator character between segments. -/
def intercalateChar (sepc : Char) : List (List Char) → List Char
  | [] => []
  | [p] => p
  | p :: ps => p ++ sepc :: intercalateChar sepc ps

/-- The separator-joined segment prefixes of a path: for
`a/b/c` (separator `/`) these are `a`, `a/b`, `a/b/c`, with
empty joins dropped (the lone leading segment of an absolute POSIX
path). -/
def ancestorJoins (sepc : Char) (p : String) : List String :=
  let parts := splitOnChar sepc p.data
  ((List.range parts.length).map fun i =>
    String.mk (intercalateChar sepc (parts.take (i + 1)))).filter fun s => decide (s ≠ "")

/-- `fs.mkdirSync(p, { recursive: true })`, successful case: creates the
directory and every missing ancestor along the separator chain. -/
def FileSys.mkdirSync (fs : FileSys) (sepc : Char) (p : String) : FileSys :=
  { fs with dirs := p :: ancestorJoins sepc p ++ fs.dirs }

/-- Effect of a successful copy of `src` to `dst` (by `fs.copyFileSync`,
PowerShell `Copy-Item -Force`, or `sudo cp`): the destination file is
written/overwritten with the source's content; nothing else changes. -/
def FileSys.copyFileSync (fs : FileSys) (src dst : String) : FileSys :=
  match fs.readFile src with
  | some c => { fs with files := (dst, c) :: fs.files }
  | none => fs

/-- A single-quote character, used inside the generated PowerShell
command line. -/
def sq : String := String.singleton (Char.ofNat 39)

/-- Character-level doubling of backslashes. -/
def escChars : List Char → List Char
  | [] => []
  | c :: cs => if c = '\\' then '\\' :: '\\' :: escChars cs else c :: escChars cs

/-- `s.replace(/\\/g, '\\\\')` from the source: double every
backslash. -/
def escapeBackslashes (s : String) : String :=
  String.mk (escChars s.data)

/-- The exact command string passed to `execSync` on Windows: an outer
`powershell -Command` wrapping `Start-Process PowerShell -Verb RunAs`
whose argument performs `Copy-Item ... -Force`.  The embedded newlines
and indentation come from the source's template literal. -/
def elevatedCopyCommand (src dst : String) : String :=
  "powershell -Command \"\n        Start-Process PowerShell -Verb RunAs -ArgumentList \"-Command Copy-Item -Path "
    ++ sq ++ escapeBackslashes src ++ sq ++ " -Destination "
    ++ sq ++ escapeBackslashes dst ++ sq ++ " -Force\"\n      \""

/-- The exact command string passed to `execSync` on macOS for the
elevated fallback. -/
def sudoCopyCommand (src dst : String) : String :=
  "sudo cp \"" ++ src ++ "\" \"" ++ dst ++ "\""

/-- Failure-mode oracles for the external operations, together with the
error-message text carried by thrown errors.  `elevatedOk` / `sudoOk`
are the exit statuses of the two `execSync` subordinate invocations
(`execSync` throws exactly when the subordinate exits non-zero). -/
structure Oracles where
  mkdirOk : Bool
  mkdirErrMsg : String
  elevatedOk : Bool
  directCopyOk : Bool
  sudoOk : Bool
  copyErrMsg : String
deriving DecidableEq, Repr

/-- The observable result of one run: the event trace in execution
order, the process exit code, and the final filesystem state. -/
structure RunResult where
  trace : List Ev
  exitCode : Nat
  fsFinal : FileSys
deriving DecidableEq, Repr

/-- The two `console.error` lines printed when the platform is
unsupported (`possiblePaths.length === 0`). -/
def unsupportedErrs : List Ev :=
  [ .logErr "Error: After Effects is not officially supported on this platform.",
    .logErr "After Effects is only available on Windows and macOS." ]

/-- The `console.error` lines printed when no candidate root exists:
the expected source artifact and a platform-specific destination
template with a `[VERSION]` placeholder. -/
def notFoundErrs (plat : Platform) : List Ev :=
  [ .logErr "Error: Could not find After Effects installation.",
    .logErr "Please manually copy the bridge script to your After Effects ScriptUI Panels folder.",
    .logErr "Source: build/scripts/mcp-bridge-auto.jsx" ] ++
  (match plat with
   | .win32 =>
     [Ev.logErr "Target: C:\\Program Files\\Adobe\\Adobe After Effects [VERSION]\\Support Files\\Scripts\\ScriptUI Panels\\"]
   | .darwin =>
     [Ev.logErr "Target: /Applications/Adobe After Effects [VERSION]/Scripts/ScriptUI Panels/"]
   | .otherOS => [])

/-- The `console.error` lines printed when the build artifact is
missing at the expected source path. -/
def sourceMissingErrs (src : String) : List Ev :=
  [ .logErr ("Error: Source script not found at " ++ src),
    .logErr "Please run \"npm run build\" first to generate the script." ]

/-- The `console.error` lines printed when `fs.mkdirSync` throws. -/
def mkdirFailErrs (msg : String) : List Ev :=
  [ .logErr ("Error creating destination folder: " ++ msg),
    .logErr "You may need administrative privileges to install the script." ]

/-- The `console.log` lines printed after a successful copy. -/
def successLogs (plat : Platform) : List Ev :=
  [ .logOut "Bridge script installed successfully!",
    .logOut "\nImportant next steps:",
    .logOut "1. Open After Effects" ] ++
  (match plat with
   | .win32 => [Ev.logOut "2. Go to Edit > Preferences > Scripting & Expressions"]
   | .darwin => [Ev.logOut "2. Go to Adobe After Effects > Preferences > Scripting & Expressions"]
   | .otherOS => []) ++
  [ .logOut "3. Enable \"Allow Scripts to Write Files and Access Network\"",
    .logOut "4. Restart After Effects",
    .logOut "5. Open the bridge panel: Window > mcp-bridge-auto.jsx" ]

/-- The `console.error` lines of the outer catch block: manual
installation instructions plus a platform-specific privilege hint. -/
def manualInstallErrs (plat : Platform) (src dst msg : String) : List Ev :=
  [ .logErr ("Error installing script: " ++ msg),
    .logErr "\nPlease try manual installation:",
    .logErr ("1. Copy: " ++ src),
    .logErr ("2. To: " ++ dst) ] ++
  (match plat with
   | .win32 => [Ev.logErr "3. You may need to run as administrator or use File Explorer with admin rights"]
   | .darwin => [Ev.logErr "3. You may need to use sudo or run with administrator privileges"]
   | .otherOS => [])

/-- The copy stage (source lines 95–131): platform-asymmetric attempt
order with a single fallback, the outer catch printing manual
instructions and exiting 1 when both attempts for the platform fail.
On Windows the elevated `execSync` runs first and `fs.copyFileSync` is
the fallback; on macOS `fs.copyFileSync` runs first and the `sudo cp`
`execSync` is the fallback. -/
def copyPhase (plat : Platform) (o : Oracles) (src dst : String) (fs : FileSys) : RunResult :=
  match plat with
  | .win32 =>
    if o.elevatedOk then
      ⟨.logOut ("Installing bridge script to " ++ dst ++ "...")
         :: .execCmd (elevatedCopyCommand src dst) :: successLogs .win32,
       0, fs.copyFileSync src dst⟩
    else if o.directCopyOk then
      ⟨.logOut ("Installing bridge script to " ++ dst ++ "...")
         :: .execCmd (elevatedCopyCommand src dst)
         :: .logOut "Elevated copy failed, trying normal copy..."
         :: .copyFile src dst :: successLogs .win32,
       0, fs.copyFileSync src dst⟩
    else
      ⟨[.logOut ("Installing bridge script to " ++ dst ++ "..."),
        .execCmd (elevatedCopyCommand src dst),
        .logOut "Elevated copy failed, trying normal copy...",
        .copyFile src dst] ++ manualInstallErrs .win32 src dst o.copyErrMsg,
       1, fs⟩
  | .darwin =>
    if o.directCopyOk then
      ⟨.logOut ("Installing bridge script to " ++ dst ++ "...")
         :: .copyFile src dst :: successLogs .darwin,
       0, fs.copyFileSync src dst⟩
    else if o.sudoOk then
      ⟨.logOut ("Installing bridge script to " ++ dst ++ "...")
         :: .copyFile src dst
         :: .logErr "Normal copy failed. Trying with elevated privileges..."
         :: .execCmd (sudoCopyCommand src dst) :: successLogs .darwin,
       0, fs.copyFileSync src dst⟩
    else
      ⟨[.logOut ("Installing bridge script to " ++ dst ++ "..."),
        .copyFile src dst,
        .logErr "Normal copy failed. Trying with elevated privileges...",
        .execCmd (sudoCopyCommand src dst)] ++ manualInstallErrs .darwin src dst o.copyErrMsg,
       1, fs⟩
  | .otherOS => ⟨[], 1, fs⟩

/-- The destination-directory stage (source lines 84–92): probe the
folder, create it recursively when absent, abort with the privilege
hint when creation throws, and otherwise continue into the copy
stage. -/
def ensureDirAndCopy (plat : Platform) (o : Oracles) (src dstFolder dstScript : String)
    (fs : FileSys) : RunResult :=
  if fs.existsSync dstFolder then
    let r := copyPhase plat o src dstScript fs
    ⟨.existsCheck dstFolder :: r.trace, r.exitCode, r.fsFinal⟩
  else if o.mkdirOk then
    let r := copyPhase plat o src dstScript (fs.mkdirSync (sepChar plat) dstFolder)
    ⟨.existsCheck dstFolder :: .mkdirRec dstFolder :: r.trace, r.exitCode, r.fsFinal⟩
  else
    ⟨.existsCheck dstFolder :: .mkdirRec dstFolder :: mkdirFailErrs o.mkdirErrMsg, 1, fs⟩

/-- The destination directory for a discovered root (source lines
68–73). -/
def destFolderOf : Platform → String → String
  | .win32, root => pathJoin .win32 [root, "Support Files", "Scripts", "ScriptUI Panels"]
  | .darwin, root => pathJoin .darwin [root, "Scripts", "ScriptUI Panels"]
  | .otherOS, _ => ""

/-- The expected build artifact path, `path.join(__dirname, 'build',
'scripts', 'mcp-bridge-auto.jsx')`. -/
def sourceScriptOf (plat : Platform) (dirname : String) : String :=
  pathJoin plat [dirname, "build", "scripts", "mcp-bridge-auto.jsx"]

/-- The destination file path, `path.join(destinationFolder,
'mcp-bridge-auto.jsx')`. -/
def destScriptOf (plat : Platform) (root : String) : String :=
  pathJoin plat [destFolderOf plat root, "mcp-bridge-auto.jsx"]

/-- Stages after a root has been located (source lines 66–143): source
validation, then directory ensuring and copy. -/
def afterLocate (plat : Platform) (dirname : String) (o : Oracles) (fs : FileSys)
    (aePath : String) : RunResult :=
  let sourceScript := sourceScriptOf plat dirname
  if fs.existsSync sourceScript then
    let r := ensureDirAndCopy plat o sourceScript (destFolderOf plat aePath)
               (destScriptOf plat aePath) fs
    ⟨.existsCheck sourceScript :: r.trace, r.exitCode, r.fsFinal⟩
  else
    ⟨.existsCheck sourceScript :: sourceMissingErrs sourceScript, 1, fs⟩

/-- The locator loop (source lines 46–52): probe candidates in order,
stop at the first that exists.  Returns the probe trace and the
selected root, if any. -/
def locate (fs : FileSys) : List String → List Ev × Option String
  | [] => ([], none)
  | p :: ps =>
    if fs.existsSync p then ([.existsCheck p], some p)
    else
      let r := locate fs ps
      (.existsCheck p :: r.1, r.2)

/-- The whole program, top to bottom: platform guard, locator,
post-locate stages. -/
def run (plat : Platform) (dirname : String) (o : Oracles) (fs0 : FileSys) : RunResult :=
  let possiblePaths := getPossibleAfterEffectsPaths plat
  if possiblePaths.isEmpty then
    ⟨unsupportedErrs, 1, fs0⟩
  else
    let loc := locate fs0 possiblePaths
    match loc.2 with
    | none => ⟨loc.1 ++ notFoundErrs plat, 1, fs0⟩
    | some aePath =>
      let r := afterLocate plat dirname o fs0 aePath
      ⟨loc.1 ++ r.trace, r.exitCode, r.fsFinal⟩

/-- Whether the copy stage as a whole succeeds for the given platform
and oracles: on each platform, the first attempt or its fallback. -/
def copySucceeds (plat : Platform) (o : Oracles) : Bool :=
  match plat with
  | .win32 => o.elevatedOk || o.directCopyOk
  | .darwin => o.directCopyOk || o.sudoOk
  | .otherOS => false

/-- The platform is one of the two supported families. -/
def supported : Platform → Bool
  | .otherOS => false
  | _ => true

/-- Events that touch the filesystem or spawn a process (as opposed to
console output). -/
def Ev.isFsOp : Ev → Bool
  | .existsCheck _ => true
  | .mkdirRec _ => true
  | .copyFile _ _ => true
  | .execCmd _ => true
  | _ => false

/-- Events that mutate state outside the process: directory creation,
file copy, or a subordinate process invocation. -/
def Ev.isMutation : Ev → Bool
  | .mkdirRec _ => true
  | .copyFile _ _ => true
  | .execCmd _ => true
  | _ => false

/-- Directory-creation events. -/
def Ev.isMkdir : Ev → Bool
  | .mkdirRec _ => true
  | _ => false

/-- The fixed descending year-tag sequence named by the spec. -/
def yearTags : List String := ["2025", "2024", "2023", "2022", "2021"]

/-- Reference definition following the spec's words: Windows candidate
roots are `<ProgramFiles>\Adobe\Adobe After Effects <YEAR>` for the
fixed year sequence, with `<ProgramFiles>` the conventional
`C:\Program Files`. -/
def specWindowsRoots : List String :=
  yearTags.map fun y => "C:\\Program Files\\Adobe\\Adobe After Effects " ++ y

/-- Reference definition following the spec's words: macOS candidate
roots are `/Applications/Adobe After Effects <YEAR>` for the same year
sequence. -/
def specMacRoots : List String :=
  yearTags.map fun y => "/Applications/Adobe After Effects " ++ y

/-- Reference definition following the spec's words: the Windows
destination sub-path segments. -/
def specWinSubPath : List String := ["Support Files", "Scripts", "ScriptUI Panels"]

/-- Reference definition following the spec's words: the macOS
destination sub-path segments. -/
def specMacSubPath : List String := ["Scripts", "ScriptUI Panels"]

/-- The fully successful terminal state as a predicate on the inputs:
supported platform, a located root, existing source artifact, ensurable
destination directory, and a copy attempt (first or fallback) that
succeeds. -/
def fullSuccess (plat : Platform) (dirname : String) (o : Oracles) (fs0 : FileSys) : Bool :=
  supported plat &&
  (match (locate fs0 (getPossibleAfterEffectsPaths plat)).2 with
   | none => false
   | some root =>
     fs0.existsSync (sourceScriptOf plat dirname) &&
     (fs0.existsSync (destFolderOf plat root) || o.mkdirOk) &&
     copySucceeds plat o)

/-! ## Lemmas about the filesystem model -/

theorem existsSync_iff (fs : FileSys) (p : String) :
    fs.existsSync p = true ↔ p ∈ fs.dirs ∨ ∃ c, (p, c) ∈ fs.files := by
  simp only [FileSys.existsSync, Bool.or_eq_true, List.any_eq_true, decide_eq_true_eq]
  constructor
  · rintro (⟨d, hd, rfl⟩ | ⟨⟨a, b⟩, hm, rfl⟩)
    · exact Or.inl hd
    · exact Or.inr ⟨b, hm⟩
  · rintro (hd | ⟨c, hc⟩)
    · exact Or.inl ⟨p, hd, rfl⟩
    · exact Or.inr ⟨(p, c), hc, rfl⟩

theorem lookupFile_mem (l : List (String × String)) (p c : String)
    (h : lookupFile l p = some c) : (p, c) ∈ l := by
  induction l with
  | nil => simp [lookupFile] at h
  | cons e rest ih =>
    by_cases he : e.1 = p
    · rw [lookupFile, if_pos he] at h
      obtain rfl := Option.some.inj h
      rw [← he]
      exact List.mem_cons_self _ _
    · rw [lookupFile, if_neg he] at h
      exact List.mem_cons_of_mem _ (ih h)

theorem lookupFile_cons_self (rest : List (String × String)) (p c : String) :
    lookupFile ((p, c) :: rest) p = some c := by
  simp [lookupFile]

theorem lookupFile_cons_ne (rest : List (String × String)) (q p c : String) (h : p ≠ q) :
    lookupFile ((p, c) :: rest) q = lookupFile rest q := by
  simp [lookupFile, h]

theorem existsSync_of_readFile (fs : FileSys) (p c : String)
    (h : fs.readFile p = some c) : fs.existsSync p = true := by
  rw [existsSync_iff]
  exact Or.inr ⟨c, lookupFile_mem _ _ _ h⟩

theorem copyFileSync_dirs (fs : FileSys) (src dst : String) :
    (fs.copyFileSync src dst).dirs = fs.dirs := by
  unfold FileSys.copyFileSync
  cases fs.readFile src <;> rfl

theorem copyFileSync_files_of_read (fs : FileSys) (src dst c : String)
    (h : fs.readFile src = some c) :
    (fs.copyFileSync src dst).files = (dst, c) :: fs.files := by
  unfold FileSys.copyFileSync
  rw [h]

theorem mkdirSync_files (fs : FileSys) (sepc : Char) (p : String) :
    (fs.mkdirSync sepc p).files = fs.files := rfl

theorem mkdirSync_dirs (fs : FileSys) (sepc : Char) (p : String) :
    (fs.mkdirSync sepc p).dirs = p :: ancestorJoins sepc p ++ fs.dirs := rfl

theorem mkdirSync_readFile (fs : FileSys) (sepc : Char) (p q : String) :
    (fs.mkdirSync sepc p).readFile q = fs.readFile q := rfl

/-! ## Lemmas about the locator -/

theorem locate_trace_take (fs : FileSys) (paths : List String) :
    ∃ k, (locate fs paths).1 = (paths.take k).map Ev.existsCheck := by
  induction paths with
  | nil => exact ⟨0, rfl⟩
  | cons p ps ih =>
    cases h : fs.existsSync p with
    | true => exact ⟨1, by simp [locate, h]⟩
    | false =>
      obtain ⟨k, hk⟩ := ih
      exact ⟨k + 1, by simp [locate, h, hk]⟩

theorem locate_trace_probe (fs : FileSys) (paths : List String) :
    ∀ e ∈ (locate fs paths).1, ∃ p, e = Ev.existsCheck p := by
  obtain ⟨k, hk⟩ := locate_trace_take fs paths
  rw [hk]
  intro e he
  obtain ⟨p, _, hp⟩ := List.mem_map.mp he
  exact ⟨p, hp.symm⟩

theorem locate_none_iff (fs : FileSys) (paths : List String) :
    (locate fs paths).2 = none ↔ ∀ p ∈ paths, fs.existsSync p = false := by
  induction paths with
  | nil => simp [locate]
  | cons p ps ih =>
    cases hb : fs.existsSync p with
    | true => simp [locate, hb]
    | false => simp [locate, hb, ih]

theorem locate_none_trace (fs : FileSys) (paths : List String)
    (h : ∀ p ∈ paths, fs.existsSync p = false) :
    (locate fs paths).1 = paths.map Ev.existsCheck := by
  induction paths with
  | nil => rfl
  | cons p ps ih =>
    have hp := h p (List.mem_cons_self p ps)
    simp [locate, hp, ih (fun q hq => h q (List.mem_cons_of_mem _ hq))]

theorem locate_some_first (fs : FileSys) (paths : List String) (r : String)
    (h : (locate fs paths).2 = some r) :
    ∃ i, ∃ hi : i < paths.length,
      paths.get ⟨i, hi⟩ = r ∧ fs.existsSync r = true ∧
      ∀ j, ∀ hj : j < i, fs.existsSync (paths.get ⟨j, Nat.lt_trans hj hi⟩) = false := by
  induction paths with
  | nil => simp [locate] at h
  | cons p ps ih =>
    cases hb : fs.existsSync p with
    | true =>
      rw [locate] at h
      rw [if_pos hb] at h
      obtain rfl : p = r := Option.some.inj h
      refine ⟨0, Nat.succ_pos _, rfl, hb, ?_⟩
      intro j hj
      exact absurd hj (Nat.not_lt_zero j)
    | false =>
      rw [locate] at h
      rw [if_neg (by simp [hb])] at h
      obtain ⟨i, hi, hget, hex, hbefore⟩ := ih h
      refine ⟨i + 1, Nat.succ_lt_succ hi, hget, hex, ?_⟩
      intro j hj
      cases j with
      | zero => exact hb
      | succ k => exact hbefore k (Nat.lt_of_succ_lt_succ hj)

theorem locate_congr (fs fs' : FileSys) (paths : List String)
    (h : ∀ p ∈ paths, fs'.existsSync p = fs.existsSync p) :
    locate fs' paths = locate fs paths := by
  induction paths with
  | nil => rfl
  | cons p ps ih =>
    have hp := h p (List.mem_cons_self p ps)
    simp only [locate, hp, ih (fun q hq => h q (List.mem_cons_of_mem _ hq))]

/-! ## Lemmas about the copy phase -/

theorem copyPhase_exitCode (plat : Platform) (o : Oracles) (src dst : String) (fs : FileSys) :
    (copyPhase plat o src dst fs).exitCode = if copySucceeds plat o = true then 0 else 1 := by
  cases plat <;> cases he : o.elevatedOk <;> cases hd : o.directCopyOk <;> cases hs : o.sudoOk <;>
    simp [copyPhase, copySucceeds, he, hd, hs]

theorem copyPhase_fsFinal_success (plat : Platform) (o : Oracles) (src dst : String) (fs : FileSys)
    (h : copySucceeds plat o = true) :
    (copyPhase plat o src dst fs).fsFinal = fs.copyFileSync src dst := by
  cases plat <;> cases he : o.elevatedOk <;> cases hd : o.directCopyOk <;> cases hs : o.sudoOk <;>
    simp [copyPhase, copySucceeds, he, hd, hs] at h ⊢

theorem copyPhase_fsFinal_failure (plat : Platform) (o : Oracles) (src dst : String) (fs : FileSys)
    (h : copySucceeds plat o = false) :
    (copyPhase plat o src dst fs).fsFinal = fs := by
  cases plat <;> cases he : o.elevatedOk <;> cases hd : o.directCopyOk <;> cases hs : o.sudoOk <;>
    simp [copyPhase, copySucceeds, he, hd, hs] at h ⊢

theorem copyPhase_no_mkdir (plat : Platform) (o : Oracles) (src dst : String) (fs : FileSys)
    (q : String) :
    Ev.mkdirRec q ∉ (copyPhase plat o src dst fs).trace := by
  cases plat <;> cases he : o.elevatedOk <;> cases hd : o.directCopyOk <;> cases hs : o.sudoOk <;>
    simp [copyPhase, he, hd, hs, successLogs, manualInstallErrs]

/-! ## Unfolding equations for the whole run -/

theorem run_eq_unsupported (d : String) (o : Oracles) (fs0 : FileSys) :
    run .otherOS d o fs0 = ⟨unsupportedErrs, 1, fs0⟩ := rfl

theorem run_eq_notFound (plat : Platform) (d : String) (o : Oracles) (fs0 : FileSys)
    (hsup : supported plat = true)
    (hl : (locate fs0 (getPossibleAfterEffectsPaths plat)).2 = none) :
    run plat d o fs0 =
      ⟨(locate fs0 (getPossibleAfterEffectsPaths plat)).1 ++ notFoundErrs plat, 1, fs0⟩ := by
  cases plat with
  | otherOS => simp [supported] at hsup
  | win32 =>
    simp only [getPossibleAfterEffectsPaths] at hl ⊢
    simp [run, getPossibleAfterEffectsPaths, hl]
  | darwin =>
    simp only [getPossibleAfterEffectsPaths] at hl ⊢
    simp [run, getPossibleAfterEffectsPaths, hl]

theorem run_eq_located (plat : Platform) (d : String) (o : Oracles) (fs0 : FileSys) (root : String)
    (hsup : supported plat = true)
    (hl : (locate fs0 (getPossibleAfterEffectsPaths plat)).2 = some root) :
    run plat d o fs0 =
      ⟨(locate fs0 (getPossibleAfterEffectsPaths plat)).1 ++ (afterLocate plat d o fs0 root).trace,
       (afterLocate plat d o fs0 root).exitCode,
       (afterLocate plat d o fs0 root).fsFinal⟩ := by
  cases plat with
  | otherOS => simp [supported] at hsup
  | win32 =>
    simp only [getPossibleAfterEffectsPaths] at hl ⊢
    simp [run, getPossibleAfterEffectsPaths, hl]
  | darwin =>
    simp only [getPossibleAfterEffectsPaths] at hl ⊢
    simp [run, getPossibleAfterEffectsPaths, hl]

theorem ensureDirAndCopy_exitCode (plat : Platform) (o : Oracles) (src dF dS : String)
    (fs : FileSys) :
    (ensureDirAndCopy plat o src dF dS fs).exitCode =
      if ((fs.existsSync dF || o.mkdirOk) && copySucceeds plat o) = true then 0 else 1 := by
  cases hdir : fs.existsSync dF <;> cases hmk : o.mkdirOk <;>
    simp [ensureDirAndCopy, hdir, hmk, copyPhase_exitCode]

theorem afterLocate_exitCode (plat : Platform) (d : String) (o : Oracles) (fs : FileSys)
    (root : String) :
    (afterLocate plat d o fs root).exitCode =
      if (fs.existsSync (sourceScriptOf plat d) &&
          (fs.existsSync (destFolderOf plat root) || o.mkdirOk) && copySucceeds plat o) = true
      then 0 else 1 := by
  cases hsrc : fs.existsSync (sourceScriptOf plat d) <;>
    simp [afterLocate, hsrc, ensureDirAndCopy_exitCode, Bool.and_assoc]

theorem run_exitCode_supported (plat : Platform) (d : String) (o : Oracles) (fs0 : FileSys)
    (hsup : supported plat = true) :
    (run plat d o fs0).exitCode = if fullSuccess plat d o fs0 = true then 0 else 1 := by
  rcases hl : (locate fs0 (getPossibleAfterEffectsPaths plat)).2 with _ | root
  · rw [run_eq_notFound plat d o fs0 hsup hl]
    simp [fullSuccess, hl]
  · rw [run_eq_located plat d o fs0 root hsup hl]
    simp [fullSuccess, hl, hsup, afterLocate_exitCode, Bool.and_assoc]

theorem run_exitCode (plat : Platform) (d : String) (o : Oracles) (fs0 : FileSys) :
    (run plat d o fs0).exitCode = if fullSuccess plat d o fs0 = true then 0 else 1 := by
  cases plat with
  | otherOS => simp [run_eq_unsupported, fullSuccess, supported]
  | win32 => exact run_exitCode_supported _ _ _ _ rfl
  | darwin => exact run_exitCode_supported _ _ _ _ rfl

theorem copyPhase_dirs (plat : Platform) (o : Oracles) (src dst : String) (fs : FileSys) :
    (copyPhase plat o src dst fs).fsFinal.dirs = fs.dirs := by
  cases hc : copySucceeds plat o
  · rw [copyPhase_fsFinal_failure _ _ _ _ _ hc]
  · rw [copyPhase_fsFinal_success _ _ _ _ _ hc, copyFileSync_dirs]

theorem locate_trace_no_mkdir (fs : FileSys) (paths : List String) (q : String) :
    Ev.mkdirRec q ∉ (locate fs paths).1 := by
  intro h
  obtain ⟨p, hp⟩ := locate_trace_probe fs paths _ h
  exact Ev.noConfusion hp

theorem locate_trace_no_mutation (fs : FileSys) (paths : List String) :
    (locate fs paths).1.all (fun e => !e.isMutation) = true := by
  rw [List.all_eq_true]
  intro e he
  obtain ⟨p, rfl⟩ := locate_trace_probe fs paths e he
  rfl

theorem afterLocate_srcMissing (plat : Platform) (d : String) (o : Oracles) (fs : FileSys)
    (root : String) (hsrc : fs.existsSync (sourceScriptOf plat d) = false) :
    afterLocate plat d o fs root =
      ⟨.existsCheck (sourceScriptOf plat d) :: sourceMissingErrs (sourceScriptOf plat d),
       1, fs⟩ := by
  simp [afterLocate, hsrc]

theorem afterLocate_srcOk (plat : Platform) (d : String) (o : Oracles) (fs : FileSys)
    (root : String) (hsrc : fs.existsSync (sourceScriptOf plat d) = true) :
    afterLocate plat d o fs root =
      ⟨.existsCheck (sourceScriptOf plat d) ::
         (ensureDirAndCopy plat o (sourceScriptOf plat d) (destFolderOf plat root)
           (destScriptOf plat root) fs).trace,
       (ensureDirAndCopy plat o (sourceScriptOf plat d) (destFolderOf plat root)
         (destScriptOf plat root) fs).exitCode,
       (ensureDirAndCopy plat o (sourceScriptOf plat d) (destFolderOf plat root)
         (destScriptOf plat root) fs).fsFinal⟩ := by
  simp [afterLocate, hsrc]

theorem ensureDirAndCopy_dirExists (plat : Platform) (o : Oracles) (src dF dS : String)
    (fs : FileSys) (h : fs.existsSync dF = true) :
    ensureDirAndCopy plat o src dF dS fs =
      ⟨.existsCheck dF :: (copyPhase plat o src dS fs).trace,
       (copyPhase plat o src dS fs).exitCode, (copyPhase plat o src dS fs).fsFinal⟩ := by
  simp [ensureDirAndCopy, h]

theorem ensureDirAndCopy_mkdir (plat : Platform) (o : Oracles) (src dF dS : String)
    (fs : FileSys) (h : fs.existsSync dF = false) (hmk : o.mkdirOk = true) :
    ensureDirAndCopy plat o src dF dS fs =
      ⟨.existsCheck dF :: .mkdirRec dF ::
         (copyPhase plat o src dS (fs.mkdirSync (sepChar plat) dF)).trace,
       (copyPhase plat o src dS (fs.mkdirSync (sepChar plat) dF)).exitCode,
       (copyPhase plat o src dS (fs.mkdirSync (sepChar plat) dF)).fsFinal⟩ := by
  simp [ensureDirAndCopy, h, hmk]

theorem ensureDirAndCopy_mkdirFail (plat : Platform) (o : Oracles) (src dF dS : String)
    (fs : FileSys) (h : fs.existsSync dF = false) (hmk : o.mkdirOk = false) :
    ensureDirAndCopy plat o src dF dS fs =
      ⟨.existsCheck dF :: .mkdirRec dF :: mkdirFailErrs o.mkdirErrMsg, 1, fs⟩ := by
  simp [ensureDirAndCopy, h, hmk]

theorem failedRun_files_aux (plat : Platform) (d : String) (o : Oracles) (fs0 : FileSys)
    (hsup : supported plat = true) (hfull : fullSuccess plat d o fs0 = false) :
    (run plat d o fs0).fsFinal.files = fs0.files := by
  rcases hl : (locate fs0 (getPossibleAfterEffectsPaths plat)).2 with _ | root
  · rw [run_eq_notFound plat d o fs0 hsup hl]
  · rw [run_eq_located plat d o fs0 root hsup hl]
    cases hsrc : fs0.existsSync (sourceScriptOf plat d) with
    | false => rw [afterLocate_srcMissing plat d o fs0 root hsrc]
    | true =>
      rw [afterLocate_srcOk plat d o fs0 root hsrc]
      simp only [fullSuccess, hl, hsup, hsrc, Bool.true_and] at hfull
      cases hdir : fs0.existsSync (destFolderOf plat root) with
      | true =>
        rw [ensureDirAndCopy_dirExists plat o _ _ _ fs0 hdir]
        have hcopy : copySucceeds plat o = false := by
          simp only [hdir, Bool.true_or, Bool.true_and] at hfull
          exact hfull
        rw [copyPhase_fsFinal_failure _ _ _ _ _ hcopy]
      | false =>
        cases hmk : o.mkdirOk with
        | false => rw [ensureDirAndCopy_mkdirFail plat o _ _ _ fs0 hdir hmk]
        | true =>
          have hcopy : copySucceeds plat o = false := by
            simp only [hdir, hmk, Bool.false_or, Bool.true_and] at hfull
            exact hfull
          rw [ensureDirAndCopy_mkdir plat o _ _ _ fs0 hdir hmk,
            copyPhase_fsFinal_failure _ _ _ _ _ hcopy, mkdirSync_files]

theorem failedRun_files (plat : Platform) (d : String) (o : Oracles) (fs0 : FileSys)
    (hexit : (run plat d o fs0).exitCode = 1) :
    (run plat d o fs0).fsFinal.files = fs0.files := by
  have hfull : fullSuccess plat d o fs0 = false := by
    cases hf : fullSuccess plat d o fs0
    · rfl
    · rw [run_exitCode, hf] at hexit
      simp at hexit
  cases plat with
  | otherOS => rfl
  | win32 => exact failedRun_files_aux .win32 d o fs0 rfl hfull
  | darwin => exact failedRun_files_aux .darwin d o fs0 rfl hfull

theorem locate_trace_no_copyFile (fs : FileSys) (paths : List String) (q r : String) :
    Ev.copyFile q r ∉ (locate fs paths).1 := by
  intro h
  obtain ⟨p, hp⟩ := locate_trace_probe fs paths _ h
  exact Ev.noConfusion hp

theorem locate_trace_no_execCmd (fs : FileSys) (paths : List String) (q : String) :
    Ev.execCmd q ∉ (locate fs paths).1 := by
  intro h
  obtain ⟨p, hp⟩ := locate_trace_probe fs paths _ h
  exact Ev.noConfusion hp

theorem copyPhase_trace_fs (plat : Platform) (o : Oracles) (src dst : String)
    (fs fs' : FileSys) :
    (copyPhase plat o src dst fs).trace = (copyPhase plat o src dst fs').trace := by
  cases plat <;> cases he : o.elevatedOk <;> cases hd : o.directCopyOk <;> cases hs : o.sudoOk <;>
    simp [copyPhase, he, hd, hs]

/-- Every run that reaches the copy stage has trace
`pre ++ copy-phase trace` with `pre` consisting only of existence
checks and the mkdir event, and its exit code is the copy phase's. -/
theorem run_trace_copyStage (plat : Platform) (d : String) (o : Oracles) (fs0 : FileSys)
    (root : String) (hsup : supported plat = true)
    (hl : (locate fs0 (getPossibleAfterEffectsPaths plat)).2 = some root)
    (hsrc : fs0.existsSync (sourceScriptOf plat d) = true)
    (hreach : fs0.existsSync (destFolderOf plat root) = true ∨ o.mkdirOk = true) :
    ∃ pre,
      (run plat d o fs0).trace =
        pre ++ (copyPhase plat o (sourceScriptOf plat d) (destScriptOf plat root) fs0).trace ∧
      (∀ e ∈ pre, (∃ p, e = Ev.existsCheck p) ∨ (∃ p, e = Ev.mkdirRec p)) ∧
      (run plat d o fs0).exitCode =
        (copyPhase plat o (sourceScriptOf plat d) (destScriptOf plat root) fs0).exitCode := by
  cases hdir0 : fs0.existsSync (destFolderOf plat root) with
  | true =>
    rw [run_eq_located plat d o fs0 root hsup hl, afterLocate_srcOk plat d o fs0 root hsrc,
      ensureDirAndCopy_dirExists plat o _ _ _ fs0 hdir0]
    refine ⟨(locate fs0 (getPossibleAfterEffectsPaths plat)).1
      ++ [Ev.existsCheck (sourceScriptOf plat d),
          Ev.existsCheck (destFolderOf plat root)], ?_, ?_, rfl⟩
    · simp
    · intro e he
      simp only [List.mem_append, List.mem_cons, List.not_mem_nil, or_false] at he
      rcases he with he | he | he
      · obtain ⟨p, rfl⟩ := locate_trace_probe _ _ e he
        exact Or.inl ⟨p, rfl⟩
      · exact Or.inl ⟨_, he⟩
      · exact Or.inl ⟨_, he⟩
  | false =>
    have hmk : o.mkdirOk = true := by
      rcases hreach with h | h
      · rw [hdir0] at h
        exact absurd h (by simp)
      · exact h
    rw [run_eq_located plat d o fs0 root hsup hl, afterLocate_srcOk plat d o fs0 root hsrc,
      ensureDirAndCopy_mkdir plat o _ _ _ fs0 hdir0 hmk]
    refine ⟨(locate fs0 (getPossibleAfterEffectsPaths plat)).1
      ++ [Ev.existsCheck (sourceScriptOf plat d),
          Ev.existsCheck (destFolderOf plat root),
          Ev.mkdirRec (destFolderOf plat root)], ?_, ?_, ?_⟩
    · rw [copyPhase_trace_fs plat o _ _ (fs0.mkdirSync (sepChar plat) (destFolderOf plat root)) fs0]
      simp
    · intro e he
      simp only [List.mem_append, List.mem_cons, List.not_mem_nil, or_false] at he
      rcases he with he | he | he | he
      · obtain ⟨p, rfl⟩ := locate_trace_probe _ _ e he
        exact Or.inl ⟨p, rfl⟩
      · exact Or.inl ⟨_, he⟩
      · exact Or.inl ⟨_, he⟩
      · exact Or.inr ⟨_, he⟩
    · rw [copyPhase_exitCode, copyPhase_exitCode]

theorem copyPhase_win_elevated_mem (o : Oracles) (src dst : String) (fs : FileSys) :
    Ev.execCmd (elevatedCopyCommand src dst) ∈ (copyPhase .win32 o src dst fs).trace := by
  cases he : o.elevatedOk <;> cases hd : o.directCopyOk <;> simp [copyPhase, he, hd]

theorem copyPhase_win_copyFile_iff (o : Oracles) (src dst : String) (fs : FileSys) :
    (Ev.copyFile src dst ∈ (copyPhase .win32 o src dst fs).trace) ↔ o.elevatedOk = false := by
  cases he : o.elevatedOk <;> cases hd : o.directCopyOk <;>
    simp [copyPhase, he, hd, successLogs, manualInstallErrs]

theorem copyPhase_win_shape (o : Oracles) (src dst : String) (fs : FileSys) :
    ∃ rest, (copyPhase .win32 o src dst fs).trace =
      Ev.logOut ("Installing bridge script to " ++ dst ++ "...")
        :: Ev.execCmd (elevatedCopyCommand src dst) :: rest := by
  cases he : o.elevatedOk <;> cases hd : o.directCopyOk <;>
    simp [copyPhase, he, hd]

theorem copyPhase_win_rest (o : Oracles) (src dst : String) (fs : FileSys) :
    (o.elevatedOk = true →
      (copyPhase .win32 o src dst fs).trace =
        Ev.logOut ("Installing bridge script to " ++ dst ++ "...")
          :: Ev.execCmd (elevatedCopyCommand src dst) :: successLogs .win32) ∧
    (o.elevatedOk = false →
      ∃ rest2, (copyPhase .win32 o src dst fs).trace =
        Ev.logOut ("Installing bridge script to " ++ dst ++ "...")
          :: Ev.execCmd (elevatedCopyCommand src dst)
          :: Ev.logOut "Elevated copy failed, trying normal copy..."
          :: Ev.copyFile src dst :: rest2) := by
  constructor
  · intro he
    simp [copyPhase, he]
  · intro he
    cases hd : o.directCopyOk <;> simp [copyPhase, he, hd]

theorem copyPhase_darwin_copyFile_mem (o : Oracles) (src dst : String) (fs : FileSys) :
    Ev.copyFile src dst ∈ (copyPhase .darwin o src dst fs).trace := by
  cases hd : o.directCopyOk <;> cases hs : o.sudoOk <;> simp [copyPhase, hd, hs]

theorem copyPhase_darwin_sudo_iff (o : Oracles) (src dst : String) (fs : FileSys) :
    (Ev.execCmd (sudoCopyCommand src dst) ∈ (copyPhase .darwin o src dst fs).trace) ↔
      o.directCopyOk = false := by
  cases hd : o.directCopyOk <;> cases hs : o.sudoOk <;>
    simp [copyPhase, hd, hs, successLogs, manualInstallErrs]

theorem copyPhase_darwin_shape (o : Oracles) (src dst : String) (fs : FileSys) :
    ∃ rest, (copyPhase .darwin o src dst fs).trace =
      Ev.logOut ("Installing bridge script to " ++ dst ++ "...")
        :: Ev.copyFile src dst :: rest := by
  cases hd : o.directCopyOk <;> cases hs : o.sudoOk <;>
    simp [copyPhase, hd, hs]

theorem copyPhase_darwin_sudo_tail (o : Oracles) (src dst : String) (fs : FileSys)
    (hd : o.directCopyOk = false) :
    (copyPhase .darwin o src dst fs).trace =
      [Ev.logOut ("Installing bridge script to " ++ dst ++ "..."),
       Ev.copyFile src dst,
       Ev.logErr "Normal copy failed. Trying with elevated privileges..."]
        ++ Ev.execCmd (sudoCopyCommand src dst)
        :: (if o.sudoOk = true then successLogs .darwin
            else manualInstallErrs .darwin src dst o.copyErrMsg) := by
  cases hs : o.sudoOk <;> simp [copyPhase, hd, hs]

/-! ## Claim theorems -/

/-- C4: for every operating-system identifier other than the Windows and
macOS families, the resolver returns no candidate roots and the run
reports the unsupported-platform error and exits with status 1
immediately: the trace consists of exactly the two error lines, contains
no filesystem operation at all (no existence check, no directory
creation, no copy, no subordinate process), and the filesystem state is
returned unchanged. -/
theorem C4_unsupported_platform_immediate_exit :
    ∀ (d : String) (o : Oracles) (fs0 : FileSys),
      getPossibleAfterEffectsPaths .otherOS = [] ∧
      run .otherOS d o fs0 = ⟨unsupportedErrs, 1, fs0⟩ ∧
      (run .otherOS d o fs0).trace.all (fun e => !e.isFsOp) = true ∧
      (run .otherOS d o fs0).exitCode = 1 ∧
      (run .otherOS d o fs0).fsFinal = fs0 := by
  intro d o fs0
  exact ⟨rfl, rfl, rfl, rfl, rfl⟩

/-- C7: the platform resolver agrees with the spec's reference
definition: Windows candidate roots are
`<ProgramFiles>\Adobe\Adobe After Effects <YEAR>` over the fixed
descending year sequence with destination sub-path
`Support Files\Scripts\ScriptUI Panels`; macOS candidate roots are
`/Applications/Adobe After Effects <YEAR>` over the same year sequence
with destination sub-path `Scripts/ScriptUI Panels`; on both platforms
the candidate-root count equals the year-sequence length. -/
theorem C7_resolver_matches_reference :
    getPossibleAfterEffectsPaths .win32 = specWindowsRoots ∧
    getPossibleAfterEffectsPaths .darwin = specMacRoots ∧
    (getPossibleAfterEffectsPaths .win32).length = yearTags.length ∧
    (getPossibleAfterEffectsPaths .darwin).length = yearTags.length ∧
    (∀ root, destFolderOf .win32 root = pathJoin .win32 (root :: specWinSubPath)) ∧
    (∀ root, destFolderOf .darwin root = pathJoin .darwin (root :: specMacSubPath)) ∧
    (∀ root, destScriptOf .win32 root =
      pathJoin .win32 [destFolderOf .win32 root, "mcp-bridge-auto.jsx"]) ∧
    (∀ root, destScriptOf .darwin root =
      pathJoin .darwin [destFolderOf .darwin root, "mcp-bridge-auto.jsx"]) := by
  exact ⟨by decide, by decide, by decide, by decide,
    fun root => rfl, fun root => rfl, fun root => rfl, fun root => rfl⟩

/-- C3: the locator probes the candidate roots in the given order (its
probe trace is the existence checks of a prefix of the candidate list)
and selects exactly the first candidate whose existence check succeeds
(every earlier candidate's check failed); when no candidate exists it
returns none, and the run prints the not-found error, the expected
source artifact path and the platform's manual-installation destination
template with a `[VERSION]` placeholder, and exits 1. -/
theorem C3_locator_first_match :
    (∀ (fs : FileSys) (paths : List String),
       ∃ k, (locate fs paths).1 = (paths.take k).map Ev.existsCheck) ∧
    (∀ (fs : FileSys) (paths : List String) (r : String), (locate fs paths).2 = some r →
       ∃ i, ∃ hi : i < paths.length,
         paths.get ⟨i, hi⟩ = r ∧ fs.existsSync r = true ∧
         ∀ j, ∀ hj : j < i, fs.existsSync (paths.get ⟨j, Nat.lt_trans hj hi⟩) = false) ∧
    (∀ (fs : FileSys) (paths : List String),
       (∀ p ∈ paths, fs.existsSync p = false) → (locate fs paths).2 = none) ∧
    (∀ (plat : Platform) (d : String) (o : Oracles) (fs0 : FileSys), supported plat = true →
       (∀ p ∈ getPossibleAfterEffectsPaths plat, fs0.existsSync p = false) →
       (run plat d o fs0).exitCode = 1 ∧
       (run plat d o fs0).trace =
         (getPossibleAfterEffectsPaths plat).map Ev.existsCheck ++ notFoundErrs plat ∧
       Ev.logErr "Source: build/scripts/mcp-bridge-auto.jsx" ∈ (run plat d o fs0).trace ∧
       (plat = .win32 →
         Ev.logErr "Target: C:\\Program Files\\Adobe\\Adobe After Effects [VERSION]\\Support Files\\Scripts\\ScriptUI Panels\\"
           ∈ (run plat d o fs0).trace) ∧
       (plat = .darwin →
         Ev.logErr "Target: /Applications/Adobe After Effects [VERSION]/Scripts/ScriptUI Panels/"
           ∈ (run plat d o fs0).trace)) := by
  refine ⟨locate_trace_take, locate_some_first, ?_, ?_⟩
  · intro fs paths h
    exact (locate_none_iff fs paths).mpr h
  · intro plat d o fs0 hsup h
    have hl : (locate fs0 (getPossibleAfterEffectsPaths plat)).2 = none :=
      (locate_none_iff _ _).mpr h
    rw [run_eq_notFound plat d o fs0 hsup hl]
    rw [locate_none_trace _ _ h]
    refine ⟨rfl, rfl, ?_, ?_, ?_⟩
    · cases plat <;> simp [notFoundErrs]
    · rintro rfl
      simp [notFoundErrs]
    · rintro rfl
      simp [notFoundErrs]

/-- Witness for C3: with After Effects 2025 absent and both 2024 and
2023 present on Windows, the locator selects 2024 (index 1, every
earlier candidate absent); with no candidate present the run exits 1
after probing all five candidates. -/
theorem C3_locator_first_match_witness :
    ((locate ⟨["C:\\Program Files\\Adobe\\Adobe After Effects 2024",
               "C:\\Program Files\\Adobe\\Adobe After Effects 2023"], []⟩
        (getPossibleAfterEffectsPaths .win32)).2 =
      some "C:\\Program Files\\Adobe\\Adobe After Effects 2024") ∧
    (∃ i, ∃ hi : i < (getPossibleAfterEffectsPaths .win32).length,
      (getPossibleAfterEffectsPaths .win32).get ⟨i, hi⟩ =
        "C:\\Program Files\\Adobe\\Adobe After Effects 2024" ∧
      FileSys.existsSync ⟨["C:\\Program Files\\Adobe\\Adobe After Effects 2024",
                           "C:\\Program Files\\Adobe\\Adobe After Effects 2023"], []⟩
        "C:\\Program Files\\Adobe\\Adobe After Effects 2024" = true ∧
      ∀ j, ∀ hj : j < i,
        FileSys.existsSync ⟨["C:\\Program Files\\Adobe\\Adobe After Effects 2024",
                             "C:\\Program Files\\Adobe\\Adobe After Effects 2023"], []⟩
          ((getPossibleAfterEffectsPaths .win32).get ⟨j, Nat.lt_trans hj hi⟩) = false) ∧
    (run .win32 "C:\\repo" ⟨true, "m", true, true, true, "c"⟩ ⟨[], []⟩).exitCode = 1 := by
  refine ⟨by decide, ?_, ?_⟩
  · exact C3_locator_first_match.2.1 _ _ _ (by decide)
  · exact (C3_locator_first_match.2.2.2 .win32 "C:\\repo" ⟨true, "m", true, true, true, "c"⟩
      ⟨[], []⟩ rfl (by decide)).1

/-- C5: when the build artifact is missing at the expected source path,
no run mutates anything (the final filesystem equals the initial one and
the trace contains no directory creation, copy, or subordinate-process
event — the source check runs before any mutation), and a run that has
located a root prints the expected path and the build-step instruction
and exits 1, its trace ending at the source check. -/
theorem C5_missing_source_aborts_before_mutation :
    (∀ (plat : Platform) (d : String) (o : Oracles) (fs0 : FileSys),
       fs0.existsSync (sourceScriptOf plat d) = false →
       (run plat d o fs0).fsFinal = fs0 ∧
       (run plat d o fs0).trace.all (fun e => !e.isMutation) = true) ∧
    (∀ (plat : Platform) (d : String) (o : Oracles) (fs0 : FileSys) (root : String),
       supported plat = true →
       (locate fs0 (getPossibleAfterEffectsPaths plat)).2 = some root →
       fs0.existsSync (sourceScriptOf plat d) = false →
       (run plat d o fs0).exitCode = 1 ∧
       (run plat d o fs0).trace =
         (locate fs0 (getPossibleAfterEffectsPaths plat)).1
           ++ .existsCheck (sourceScriptOf plat d)
           :: sourceMissingErrs (sourceScriptOf plat d) ∧
       Ev.logErr ("Error: Source script not found at " ++ sourceScriptOf plat d)
         ∈ (run plat d o fs0).trace ∧
       Ev.logErr "Please run \"npm run build\" first to generate the script."
         ∈ (run plat d o fs0).trace) := by
  constructor
  · intro plat d o fs0 hsrc
    cases plat with
    | otherOS => exact ⟨rfl, rfl⟩
    | win32 =>
      rcases hl : (locate fs0 (getPossibleAfterEffectsPaths .win32)).2 with _ | root
      · rw [run_eq_notFound .win32 d o fs0 rfl hl]
        exact ⟨rfl, by
          rw [List.all_append, Bool.and_eq_true]
          exact ⟨locate_trace_no_mutation _ _, rfl⟩⟩
      · rw [run_eq_located .win32 d o fs0 root rfl hl,
          afterLocate_srcMissing .win32 d o fs0 root hsrc]
        exact ⟨rfl, by
          rw [List.all_append, Bool.and_eq_true]
          exact ⟨locate_trace_no_mutation _ _, rfl⟩⟩
    | darwin =>
      rcases hl : (locate fs0 (getPossibleAfterEffectsPaths .darwin)).2 with _ | root
      · rw [run_eq_notFound .darwin d o fs0 rfl hl]
        exact ⟨rfl, by
          rw [List.all_append, Bool.and_eq_true]
          exact ⟨locate_trace_no_mutation _ _, rfl⟩⟩
      · rw [run_eq_located .darwin d o fs0 root rfl hl,
          afterLocate_srcMissing .darwin d o fs0 root hsrc]
        exact ⟨rfl, by
          rw [List.all_append, Bool.and_eq_true]
          exact ⟨locate_trace_no_mutation _ _, rfl⟩⟩
  · intro plat d o fs0 root hsup hl hsrc
    rw [run_eq_located plat d o fs0 root hsup hl,
      afterLocate_srcMissing plat d o fs0 root hsrc]
    exact ⟨rfl, rfl, by simp [sourceMissingErrs], by simp [sourceMissingErrs]⟩

/-- Witness for C5: on macOS with After Effects 2025 installed but no
build artifact, the run exits 1, leaves the filesystem unchanged, and
prints the expected source path. -/
theorem C5_missing_source_witness :
    (run .darwin "/repo" ⟨true, "m", true, true, true, "c"⟩
       ⟨["/Applications/Adobe After Effects 2025"], []⟩).exitCode = 1 ∧
    (run .darwin "/repo" ⟨true, "m", true, true, true, "c"⟩
       ⟨["/Applications/Adobe After Effects 2025"], []⟩).fsFinal =
      ⟨["/Applications/Adobe After Effects 2025"], []⟩ ∧
    Ev.logErr ("Error: Source script not found at " ++ sourceScriptOf .darwin "/repo")
      ∈ (run .darwin "/repo" ⟨true, "m", true, true, true, "c"⟩
          ⟨["/Applications/Adobe After Effects 2025"], []⟩).trace := by
  refine ⟨?_, ?_, ?_⟩
  · exact (C5_missing_source_aborts_before_mutation.2 .darwin "/repo"
      ⟨true, "m", true, true, true, "c"⟩ ⟨["/Applications/Adobe After Effects 2025"], []⟩
      "/Applications/Adobe After Effects 2025" rfl (by decide) (by decide)).1
  · exact (C5_missing_source_aborts_before_mutation.1 .darwin "/repo"
      ⟨true, "m", true, true, true, "c"⟩ ⟨["/Applications/Adobe After Effects 2025"], []⟩
      (by decide)).1
  · exact (C5_missing_source_aborts_before_mutation.2 .darwin "/repo"
      ⟨true, "m", true, true, true, "c"⟩ ⟨["/Applications/Adobe After Effects 2025"], []⟩
      "/Applications/Adobe After Effects 2025" rfl (by decide) (by decide)).2.2.1

/-- C6: for every run reaching the copy stage (platform supported, root
located, source present): when the destination directory is absent and
creation succeeds, the run records the recursive directory creation and
the final directory set is the destination plus all its separator-chain
ancestors on top of the initial set; when it is absent and creation
fails, the run prints the privilege hint, exits 1, attempts no copy
(trace ends at the mkdir failure) and leaves the filesystem unchanged;
when it already exists, no directory creation of any path is
attempted. -/
theorem C6_destination_directory_handling :
    ∀ (plat : Platform) (d : String) (o : Oracles) (fs0 : FileSys) (root : String),
      supported plat = true →
      (locate fs0 (getPossibleAfterEffectsPaths plat)).2 = some root →
      fs0.existsSync (sourceScriptOf plat d) = true →
      ((fs0.existsSync (destFolderOf plat root) = false → o.mkdirOk = true →
          Ev.mkdirRec (destFolderOf plat root) ∈ (run plat d o fs0).trace ∧
          (run plat d o fs0).fsFinal.dirs =
            destFolderOf plat root
              :: ancestorJoins (sepChar plat) (destFolderOf plat root) ++ fs0.dirs) ∧
       (fs0.existsSync (destFolderOf plat root) = false → o.mkdirOk = false →
          (run plat d o fs0).exitCode = 1 ∧
          (run plat d o fs0).trace =
            (locate fs0 (getPossibleAfterEffectsPaths plat)).1
              ++ .existsCheck (sourceScriptOf plat d)
              :: .existsCheck (destFolderOf plat root)
              :: .mkdirRec (destFolderOf plat root)
              :: mkdirFailErrs o.mkdirErrMsg ∧
          Ev.logErr "You may need administrative privileges to install the script."
            ∈ (run plat d o fs0).trace ∧
          (run plat d o fs0).fsFinal = fs0) ∧
       (fs0.existsSync (destFolderOf plat root) = true →
          ∀ q, Ev.mkdirRec q ∉ (run plat d o fs0).trace)) := by
  intro plat d o fs0 root hsup hl hsrc
  refine ⟨?_, ?_, ?_⟩
  · intro hdir hmk
    rw [run_eq_located plat d o fs0 root hsup hl, afterLocate_srcOk plat d o fs0 root hsrc,
      ensureDirAndCopy_mkdir plat o _ _ _ fs0 hdir hmk]
    constructor
    · simp
    · simp only [copyPhase_dirs, mkdirSync_dirs]
  · intro hdir hmk
    rw [run_eq_located plat d o fs0 root hsup hl, afterLocate_srcOk plat d o fs0 root hsrc,
      ensureDirAndCopy_mkdirFail plat o _ _ _ fs0 hdir hmk]
    exact ⟨rfl, rfl, by simp [mkdirFailErrs], rfl⟩
  · intro hdir q
    rw [run_eq_located plat d o fs0 root hsup hl, afterLocate_srcOk plat d o fs0 root hsrc,
      ensureDirAndCopy_dirExists plat o _ _ _ fs0 hdir]
    intro hmem
    simp only [List.mem_append, List.mem_cons] at hmem
    rcases hmem with h | h | h | h
    · exact locate_trace_no_mkdir _ _ _ h
    · exact Ev.noConfusion h
    · exact Ev.noConfusion h
    · exact copyPhase_no_mkdir _ _ _ _ _ _ h

/-- Witness for C6: on Windows with 2024 installed, a missing
destination directory is created (event recorded, ancestors added);
with directory creation failing the run exits 1; with the directory
already present no directory creation happens. -/
theorem C6_destination_directory_witness :
    (Ev.mkdirRec (destFolderOf .win32 "C:\\Program Files\\Adobe\\Adobe After Effects 2024") ∈
       (run .win32 "C:\\repo" ⟨true, "m", true, true, true, "c"⟩
         ⟨["C:\\Program Files\\Adobe\\Adobe After Effects 2024"],
          [("C:\\repo\\build\\scripts\\mcp-bridge-auto.jsx", "P")]⟩).trace) ∧
    ((run .win32 "C:\\repo" ⟨false, "EPERM", true, true, true, "c"⟩
       ⟨["C:\\Program Files\\Adobe\\Adobe After Effects 2024"],
        [("C:\\repo\\build\\scripts\\mcp-bridge-auto.jsx", "P")]⟩).exitCode = 1) ∧
    (∀ q, Ev.mkdirRec q ∉
       (run .win32 "C:\\repo" ⟨true, "m", true, true, true, "c"⟩
         ⟨["C:\\Program Files\\Adobe\\Adobe After Effects 2024",
           "C:\\Program Files\\Adobe\\Adobe After Effects 2024\\Support Files\\Scripts\\ScriptUI Panels"],
          [("C:\\repo\\build\\scripts\\mcp-bridge-auto.jsx", "P")]⟩).trace) := by
  refine ⟨?_, ?_, ?_⟩
  · exact ((C6_destination_directory_handling .win32 "C:\\repo"
      ⟨true, "m", true, true, true, "c"⟩
      ⟨["C:\\Program Files\\Adobe\\Adobe After Effects 2024"],
       [("C:\\repo\\build\\scripts\\mcp-bridge-auto.jsx", "P")]⟩
      "C:\\Program Files\\Adobe\\Adobe After Effects 2024"
      rfl (by decide) (by decide)).1 (by decide) rfl).1
  · exact ((C6_destination_directory_handling .win32 "C:\\repo"
      ⟨false, "EPERM", true, true, true, "c"⟩
      ⟨["C:\\Program Files\\Adobe\\Adobe After Effects 2024"],
       [("C:\\repo\\build\\scripts\\mcp-bridge-auto.jsx", "P")]⟩
      "C:\\Program Files\\Adobe\\Adobe After Effects 2024"
      rfl (by decide) (by decide)).2.1 (by decide) rfl).1
  · exact (C6_destination_directory_handling .win32 "C:\\repo"
      ⟨true, "m", true, true, true, "c"⟩
      ⟨["C:\\Program Files\\Adobe\\Adobe After Effects 2024",
        "C:\\Program Files\\Adobe\\Adobe After Effects 2024\\Support Files\\Scripts\\ScriptUI Panels"],
       [("C:\\repo\\build\\scripts\\mcp-bridge-auto.jsx", "P")]⟩
      "C:\\Program Files\\Adobe\\Adobe After Effects 2024"
      rfl (by decide) (by decide)).2.2 (by decide)

/-- C8: the process exits 0 exactly when the fully successful terminal
state is reached (supported platform, located root, validated source,
ensured directory, successful copy); every exit code is 0 or 1; each
failure kind prints its own distinctive line (unsupported platform,
installation not found, missing source, directory creation failure,
copy failure), and those five lines are pairwise distinct. -/
theorem C8_exit_zero_iff_full_success :
    (∀ (plat : Platform) (d : String) (o : Oracles) (fs0 : FileSys),
       (run plat d o fs0).exitCode = 0 ↔ fullSuccess plat d o fs0 = true) ∧
    (∀ (plat : Platform) (d : String) (o : Oracles) (fs0 : FileSys),
       (run plat d o fs0).exitCode = 0 ∨ (run plat d o fs0).exitCode = 1) ∧
    (∀ (d : String) (o : Oracles) (fs0 : FileSys),
       Ev.logErr "Error: After Effects is not officially supported on this platform."
         ∈ (run .otherOS d o fs0).trace) ∧
    (∀ (plat : Platform) (d : String) (o : Oracles) (fs0 : FileSys), supported plat = true →
       (locate fs0 (getPossibleAfterEffectsPaths plat)).2 = none →
       Ev.logErr "Error: Could not find After Effects installation."
         ∈ (run plat d o fs0).trace) ∧
    (∀ (plat : Platform) (d : String) (o : Oracles) (fs0 : FileSys) (root : String),
       supported plat = true →
       (locate fs0 (getPossibleAfterEffectsPaths plat)).2 = some root →
       fs0.existsSync (sourceScriptOf plat d) = false →
       Ev.logErr "Please run \"npm run build\" first to generate the script."
         ∈ (run plat d o fs0).trace) ∧
    (∀ (plat : Platform) (d : String) (o : Oracles) (fs0 : FileSys) (root : String),
       supported plat = true →
       (locate fs0 (getPossibleAfterEffectsPaths plat)).2 = some root →
       fs0.existsSync (sourceScriptOf plat d) = true →
       fs0.existsSync (destFolderOf plat root) = false → o.mkdirOk = false →
       Ev.logErr "You may need administrative privileges to install the script."
         ∈ (run plat d o fs0).trace) ∧
    (∀ (plat : Platform) (d : String) (o : Oracles) (fs0 : FileSys) (root : String),
       supported plat = true →
       (locate fs0 (getPossibleAfterEffectsPaths plat)).2 = some root →
       fs0.existsSync (sourceScriptOf plat d) = true →
       (fs0.existsSync (destFolderOf plat root) = true ∨ o.mkdirOk = true) →
       copySucceeds plat o = false →
       Ev.logErr "\nPlease try manual installation:" ∈ (run plat d o fs0).trace) ∧
    ([ "Error: After Effects is not officially supported on this platform.",
       "Error: Could not find After Effects installation.",
       "Please run \"npm run build\" first to generate the script.",
       "You may need administrative privileges to install the script.",
       "\nPlease try manual installation:" ] : List String).Pairwise (· ≠ ·) := by
  refine ⟨?_, ?_, ?_, ?_, ?_, ?_, ?_, by decide⟩
  · intro plat d o fs0
    rw [run_exitCode]
    cases hfs : fullSuccess plat d o fs0 <;> simp [hfs]
  · intro plat d o fs0
    rw [run_exitCode]
    cases hfs : fullSuccess plat d o fs0 <;> simp [hfs]
  · intro d o fs0
    simp [run_eq_unsupported, unsupportedErrs]
  · intro plat d o fs0 hsup hl
    rw [run_eq_notFound plat d o fs0 hsup hl]
    simp [notFoundErrs]
  · intro plat d o fs0 root hsup hl hsrc
    rw [run_eq_located plat d o fs0 root hsup hl,
      afterLocate_srcMissing plat d o fs0 root hsrc]
    simp [sourceMissingErrs]
  · intro plat d o fs0 root hsup hl hsrc hdir hmk
    rw [run_eq_located plat d o fs0 root hsup hl, afterLocate_srcOk plat d o fs0 root hsrc,
      ensureDirAndCopy_mkdirFail plat o _ _ _ fs0 hdir hmk]
    simp [mkdirFailErrs]
  · intro plat d o fs0 root hsup hl hsrc hdir hcopy
    have hmem : Ev.logErr "\nPlease try manual installation:" ∈
        (copyPhase plat (o) (sourceScriptOf plat d) (destScriptOf plat root)
          (fs0.mkdirSync (sepChar plat) (destFolderOf plat root))).trace ∧
        Ev.logErr "\nPlease try manual installation:" ∈
        (copyPhase plat (o) (sourceScriptOf plat d) (destScriptOf plat root) fs0).trace := by
      cases plat with
      | otherOS => simp [supported] at hsup
      | win32 =>
        cases he : o.elevatedOk <;> cases hd : o.directCopyOk <;>
          simp [copySucceeds, he, hd] at hcopy ⊢ <;>
          simp [copyPhase, he, hd, manualInstallErrs]
      | darwin =>
        cases hd : o.directCopyOk <;> cases hs : o.sudoOk <;>
          simp [copySucceeds, hd, hs] at hcopy ⊢ <;>
          simp [copyPhase, hd, hs, manualInstallErrs]
    rcases hdir with hdir | hmk
    · rw [run_eq_located plat d o fs0 root hsup hl, afterLocate_srcOk plat d o fs0 root hsrc,
        ensureDirAndCopy_dirExists plat o _ _ _ fs0 hdir]
      simp only [List.mem_append, List.mem_cons]
      exact Or.inr (Or.inr (Or.inr hmem.2))
    · cases hdir0 : fs0.existsSync (destFolderOf plat root) with
      | true =>
        rw [run_eq_located plat d o fs0 root hsup hl, afterLocate_srcOk plat d o fs0 root hsrc,
          ensureDirAndCopy_dirExists plat o _ _ _ fs0 hdir0]
        simp only [List.mem_append, List.mem_cons]
        exact Or.inr (Or.inr (Or.inr hmem.2))
      | false =>
        rw [run_eq_located plat d o fs0 root hsup hl, afterLocate_srcOk plat d o fs0 root hsrc,
          ensureDirAndCopy_mkdir plat o _ _ _ fs0 hdir0 hmk]
        simp only [List.mem_append, List.mem_cons]
        exact Or.inr (Or.inr (Or.inr (Or.inr hmem.1)))

/-- Witness for C8: a fully successful Windows run exits 0; a macOS run
whose directory creation fails prints the privilege hint; a macOS run
whose both copy attempts fail prints the manual-installation line. -/
theorem C8_exit_zero_witness :
    (run .win32 "C:\\repo" ⟨true, "m", true, true, true, "c"⟩
       ⟨["C:\\Program Files\\Adobe\\Adobe After Effects 2024"],
        [("C:\\repo\\build\\scripts\\mcp-bridge-auto.jsx", "P")]⟩).exitCode = 0 ∧
    Ev.logErr "You may need administrative privileges to install the script." ∈
      (run .darwin "/repo" ⟨false, "EACCES", true, true, true, "c"⟩
        ⟨["/Applications/Adobe After Effects 2023"],
         [("/repo/build/scripts/mcp-bridge-auto.jsx", "P")]⟩).trace ∧
    Ev.logErr "\nPlease try manual installation:" ∈
      (run .darwin "/repo" ⟨true, "m", true, false, false, "c"⟩
        ⟨["/Applications/Adobe After Effects 2023"],
         [("/repo/build/scripts/mcp-bridge-auto.jsx", "P")]⟩).trace := by
  refine ⟨?_, ?_, ?_⟩
  · exact (C8_exit_zero_iff_full_success.1 .win32 "C:\\repo" ⟨true, "m", true, true, true, "c"⟩
      ⟨["C:\\Program Files\\Adobe\\Adobe After Effects 2024"],
       [("C:\\repo\\build\\scripts\\mcp-bridge-auto.jsx", "P")]⟩).mpr (by decide)
  · exact C8_exit_zero_iff_full_success.2.2.2.2.2.1 .darwin "/repo"
      ⟨false, "EACCES", true, true, true, "c"⟩
      ⟨["/Applications/Adobe After Effects 2023"],
       [("/repo/build/scripts/mcp-bridge-auto.jsx", "P")]⟩
      "/Applications/Adobe After Effects 2023" rfl (by decide) (by decide) (by decide) rfl
  · exact C8_exit_zero_iff_full_success.2.2.2.2.2.2.1 .darwin "/repo"
      ⟨true, "m", true, false, false, "c"⟩
      ⟨["/Applications/Adobe After Effects 2023"],
       [("/repo/build/scripts/mcp-bridge-auto.jsx", "P")]⟩
      "/Applications/Adobe After Effects 2023" rfl (by decide) (by decide)
      (Or.inr rfl) rfl

/-- C10: when both copy attempts fail after the destination directory
was freshly created, the run exits 1 but keeps the created directory
tree (the final directory set still contains the destination and its
ancestors on top of the initial set) while the file store is unchanged;
moreover every run that exits 1 leaves the file store unchanged, so a
created directory is the only filesystem mutation a failed run can
leave behind. -/
theorem C10_failed_copy_keeps_created_directory :
    (∀ (plat : Platform) (d : String) (o : Oracles) (fs0 : FileSys) (root : String),
       supported plat = true →
       (locate fs0 (getPossibleAfterEffectsPaths plat)).2 = some root →
       fs0.existsSync (sourceScriptOf plat d) = true →
       fs0.existsSync (destFolderOf plat root) = false →
       o.mkdirOk = true →
       copySucceeds plat o = false →
       (run plat d o fs0).exitCode = 1 ∧
       (run plat d o fs0).fsFinal.dirs =
         destFolderOf plat root
           :: ancestorJoins (sepChar plat) (destFolderOf plat root) ++ fs0.dirs ∧
       (run plat d o fs0).fsFinal.files = fs0.files) ∧
    (∀ (plat : Platform) (d : String) (o : Oracles) (fs0 : FileSys),
       (run plat d o fs0).exitCode = 1 → (run plat d o fs0).fsFinal.files = fs0.files) := by
  constructor
  · intro plat d o fs0 root hsup hl hsrc hdir hmk hcopy
    rw [run_eq_located plat d o fs0 root hsup hl, afterLocate_srcOk plat d o fs0 root hsrc,
      ensureDirAndCopy_mkdir plat o _ _ _ fs0 hdir hmk]
    refine ⟨?_, ?_, ?_⟩
    · rw [copyPhase_exitCode, hcopy]
      rfl
    · rw [copyPhase_dirs, mkdirSync_dirs]
    · rw [copyPhase_fsFinal_failure _ _ _ _ _ hcopy, mkdirSync_files]
  · exact failedRun_files

/-- Witness for C10: a macOS run whose direct copy and sudo fallback
both fail, after creating the missing destination directory, exits 1,
keeps the created directory chain, and leaves the file store as it
was. -/
theorem C10_failed_copy_witness :
    (run .darwin "/repo" ⟨true, "m", true, false, false, "c"⟩
       ⟨["/Applications/Adobe After Effects 2023"],
        [("/repo/build/scripts/mcp-bridge-auto.jsx", "P")]⟩).exitCode = 1 ∧
    (run .darwin "/repo" ⟨true, "m", true, false, false, "c"⟩
       ⟨["/Applications/Adobe After Effects 2023"],
        [("/repo/build/scripts/mcp-bridge-auto.jsx", "P")]⟩).fsFinal.dirs =
      destFolderOf .darwin "/Applications/Adobe After Effects 2023"
        :: ancestorJoins (sepChar .darwin)
             (destFolderOf .darwin "/Applications/Adobe After Effects 2023")
        ++ ["/Applications/Adobe After Effects 2023"] ∧
    (run .darwin "/repo" ⟨true, "m", true, false, false, "c"⟩
       ⟨["/Applications/Adobe After Effects 2023"],
        [("/repo/build/scripts/mcp-bridge-auto.jsx", "P")]⟩).fsFinal.files =
      [("/repo/build/scripts/mcp-bridge-auto.jsx", "P")] :=
  C10_failed_copy_keeps_created_directory.1 .darwin "/repo" ⟨true, "m", true, false, false, "c"⟩
    ⟨["/Applications/Adobe After Effects 2023"],
     [("/repo/build/scripts/mcp-bridge-auto.jsx", "P")]⟩
    "/Applications/Adobe After Effects 2023" rfl (by decide) (by decide) (by decide) rfl rfl

/-- C1: the copy stage's attempt order is platform-asymmetric.  On
Windows, every run reaching the copy stage invokes the elevated copy,
and the direct in-process copy occurs exactly when invoking the
elevated path failed; the elevated invocation precedes any direct copy
in the trace; the run exits 0 iff the elevated invocation or the
fallback succeeded.  On macOS, every such run performs the direct copy,
and the superuser fallback occurs exactly when the direct copy failed;
the direct copy precedes any subordinate invocation; the run exits 0
iff the direct copy or the sudo fallback succeeded.  In both cases a
failure of the first attempt alone is non-fatal: the run fails only
when both attempts failed, and succeeds (exit 0) when the second
attempt succeeds. -/
theorem C1_copy_attempt_order_asymmetry :
    (∀ (d : String) (o : Oracles) (fs0 : FileSys) (root : String),
       (locate fs0 (getPossibleAfterEffectsPaths .win32)).2 = some root →
       fs0.existsSync (sourceScriptOf .win32 d) = true →
       (fs0.existsSync (destFolderOf .win32 root) = true ∨ o.mkdirOk = true) →
       (Ev.execCmd (elevatedCopyCommand (sourceScriptOf .win32 d) (destScriptOf .win32 root))
          ∈ (run .win32 d o fs0).trace) ∧
       ((Ev.copyFile (sourceScriptOf .win32 d) (destScriptOf .win32 root)
          ∈ (run .win32 d o fs0).trace) ↔ o.elevatedOk = false) ∧
       (∃ l1 l2, (run .win32 d o fs0).trace =
          l1 ++ Ev.execCmd (elevatedCopyCommand (sourceScriptOf .win32 d)
            (destScriptOf .win32 root)) :: l2 ∧
          ∀ q r, Ev.copyFile q r ∉ l1) ∧
       ((run .win32 d o fs0).exitCode = 0 ↔ (o.elevatedOk || o.directCopyOk) = true)) ∧
    (∀ (d : String) (o : Oracles) (fs0 : FileSys) (root : String),
       (locate fs0 (getPossibleAfterEffectsPaths .darwin)).2 = some root →
       fs0.existsSync (sourceScriptOf .darwin d) = true →
       (fs0.existsSync (destFolderOf .darwin root) = true ∨ o.mkdirOk = true) →
       (Ev.copyFile (sourceScriptOf .darwin d) (destScriptOf .darwin root)
          ∈ (run .darwin d o fs0).trace) ∧
       ((Ev.execCmd (sudoCopyCommand (sourceScriptOf .darwin d) (destScriptOf .darwin root))
          ∈ (run .darwin d o fs0).trace) ↔ o.directCopyOk = false) ∧
       (∃ l1 l2, (run .darwin d o fs0).trace =
          l1 ++ Ev.copyFile (sourceScriptOf .darwin d) (destScriptOf .darwin root) :: l2 ∧
          ∀ q, Ev.execCmd q ∉ l1) ∧
       ((run .darwin d o fs0).exitCode = 0 ↔ (o.directCopyOk || o.sudoOk) = true)) := by
  constructor
  · intro d o fs0 root hl hsrc hreach
    obtain ⟨pre, htr, hpre, hexit⟩ :=
      run_trace_copyStage .win32 d o fs0 root rfl hl hsrc hreach
    have hpreCopy : ∀ q r, Ev.copyFile q r ∉ pre := by
      intro q r hq
      rcases hpre _ hq with ⟨p, hp⟩ | ⟨p, hp⟩ <;> exact Ev.noConfusion hp
    refine ⟨?_, ?_, ?_, ?_⟩
    · rw [htr]
      exact List.mem_append_right _ (copyPhase_win_elevated_mem o _ _ fs0)
    · rw [htr]
      constructor
      · intro h
        rcases List.mem_append.mp h with h | h
        · exact absurd h (hpreCopy _ _)
        · exact (copyPhase_win_copyFile_iff o _ _ fs0).mp h
      · intro h
        exact List.mem_append_right _ ((copyPhase_win_copyFile_iff o _ _ fs0).mpr h)
    · obtain ⟨rest, hshape⟩ := copyPhase_win_shape o (sourceScriptOf .win32 d)
        (destScriptOf .win32 root) fs0
      refine ⟨pre ++ [Ev.logOut ("Installing bridge script to "
        ++ destScriptOf .win32 root ++ "...")], rest, ?_, ?_⟩
      · rw [htr, hshape]
        simp
      · intro q r hq
        rcases List.mem_append.mp hq with h | h
        · exact hpreCopy _ _ h
        · simp at h
    · rw [hexit, copyPhase_exitCode]
      cases hc : copySucceeds .win32 o
      · simp only [copySucceeds] at hc
        simp [hc]
      · simp only [copySucceeds] at hc
        simp [hc]
  · intro d o fs0 root hl hsrc hreach
    obtain ⟨pre, htr, hpre, hexit⟩ :=
      run_trace_copyStage .darwin d o fs0 root rfl hl hsrc hreach
    have hpreExec : ∀ q, Ev.execCmd q ∉ pre := by
      intro q hq
      rcases hpre _ hq with ⟨p, hp⟩ | ⟨p, hp⟩ <;> exact Ev.noConfusion hp
    refine ⟨?_, ?_, ?_, ?_⟩
    · rw [htr]
      exact List.mem_append_right _ (copyPhase_darwin_copyFile_mem o _ _ fs0)
    · rw [htr]
      constructor
      · intro h
        rcases List.mem_append.mp h with h | h
        · exact absurd h (hpreExec _)
        · exact (copyPhase_darwin_sudo_iff o _ _ fs0).mp h
      · intro h
        exact List.mem_append_right _ ((copyPhase_darwin_sudo_iff o _ _ fs0).mpr h)
    · obtain ⟨rest, hshape⟩ := copyPhase_darwin_shape o (sourceScriptOf .darwin d)
        (destScriptOf .darwin root) fs0
      refine ⟨pre ++ [Ev.logOut ("Installing bridge script to "
        ++ destScriptOf .darwin root ++ "...")], rest, ?_, ?_⟩
      · rw [htr, hshape]
        simp
      · intro q hq
        rcases List.mem_append.mp hq with h | h
        · exact hpreExec _ h
        · simp at h
    · rw [hexit, copyPhase_exitCode]
      cases hc : copySucceeds .darwin o
      · simp only [copySucceeds] at hc
        simp [hc]
      · simp only [copySucceeds] at hc
        simp [hc]

/-- Witness for C1 (Scenario D): on Windows with the elevated
invocation failing and the direct copy succeeding, the run exits 0 and
the direct copy event is in the trace; on macOS with the direct copy
failing and sudo succeeding, the run exits 0 and the sudo invocation is
in the trace. -/
theorem C1_copy_attempt_order_witness :
    ((run .win32 "C:\\repo" ⟨true, "m", false, true, true, "c"⟩
        ⟨["C:\\Program Files\\Adobe\\Adobe After Effects 2024"],
         [("C:\\repo\\build\\scripts\\mcp-bridge-auto.jsx", "P")]⟩).exitCode = 0) ∧
    (Ev.copyFile (sourceScriptOf .win32 "C:\\repo")
       (destScriptOf .win32 "C:\\Program Files\\Adobe\\Adobe After Effects 2024")
       ∈ (run .win32 "C:\\repo" ⟨true, "m", false, true, true, "c"⟩
           ⟨["C:\\Program Files\\Adobe\\Adobe After Effects 2024"],
            [("C:\\repo\\build\\scripts\\mcp-bridge-auto.jsx", "P")]⟩).trace) ∧
    ((run .darwin "/repo" ⟨true, "m", true, false, true, "c"⟩
        ⟨["/Applications/Adobe After Effects 2023"],
         [("/repo/build/scripts/mcp-bridge-auto.jsx", "P")]⟩).exitCode = 0) ∧
    (Ev.execCmd (sudoCopyCommand (sourceScriptOf .darwin "/repo")
       (destScriptOf .darwin "/Applications/Adobe After Effects 2023"))
       ∈ (run .darwin "/repo" ⟨true, "m", true, false, true, "c"⟩
           ⟨["/Applications/Adobe After Effects 2023"],
            [("/repo/build/scripts/mcp-bridge-auto.jsx", "P")]⟩).trace) := by
  refine ⟨?_, ?_, ?_, ?_⟩
  · exact ((C1_copy_attempt_order_asymmetry.1 "C:\\repo" ⟨true, "m", false, true, true, "c"⟩
      ⟨["C:\\Program Files\\Adobe\\Adobe After Effects 2024"],
       [("C:\\repo\\build\\scripts\\mcp-bridge-auto.jsx", "P")]⟩
      "C:\\Program Files\\Adobe\\Adobe After Effects 2024"
      (by decide) (by decide) (Or.inr rfl)).2.2.2).mpr rfl
  · exact ((C1_copy_attempt_order_asymmetry.1 "C:\\repo" ⟨true, "m", false, true, true, "c"⟩
      ⟨["C:\\Program Files\\Adobe\\Adobe After Effects 2024"],
       [("C:\\repo\\build\\scripts\\mcp-bridge-auto.jsx", "P")]⟩
      "C:\\Program Files\\Adobe\\Adobe After Effects 2024"
      (by decide) (by decide) (Or.inr rfl)).2.1).mpr rfl
  · exact ((C1_copy_attempt_order_asymmetry.2 "/repo" ⟨true, "m", true, false, true, "c"⟩
      ⟨["/Applications/Adobe After Effects 2023"],
       [("/repo/build/scripts/mcp-bridge-auto.jsx", "P")]⟩
      "/Applications/Adobe After Effects 2023"
      (by decide) (by decide) (Or.inr rfl)).2.2.2).mpr rfl
  · exact ((C1_copy_attempt_order_asymmetry.2 "/repo" ⟨true, "m", true, false, true, "c"⟩
      ⟨["/Applications/Adobe After Effects 2023"],
       [("/repo/build/scripts/mcp-bridge-auto.jsx", "P")]⟩
      "/Applications/Adobe After Effects 2023"
      (by decide) (by decide) (Or.inr rfl)).2.1).mpr rfl

/-- C2: the copy stage's subordinate invocations are synchronous and
judged by exit status alone.  The run's exit code is unchanged under
any variation of the oracles' error-message components as long as the
subordinate exit statuses (and `mkdirSync`'s outcome) agree — the
outcome is a function of exit statuses only, with no interpretation of
subordinate output.  On Windows every copy-stage run performs the
elevated `execSync` invocation, and the trace continues only after it:
when it exits 0 the remainder is exactly the success epilogue and the
run exits 0; when it exits non-zero the next event is the fallback
notice.  On macOS a copy-stage run whose direct copy failed performs
the `sudo cp` invocation, the remainder of the trace after it is
exactly the success epilogue or the failure epilogue according to its
exit status, and the run exits 0 iff the sudo subordinate exited 0. -/
theorem C2_elevated_copy_blocking_exit_status :
    (∀ (plat : Platform) (d : String) (fs0 : FileSys) (o o' : Oracles),
       o.mkdirOk = o'.mkdirOk → o.elevatedOk = o'.elevatedOk →
       o.directCopyOk = o'.directCopyOk → o.sudoOk = o'.sudoOk →
       (run plat d o fs0).exitCode = (run plat d o' fs0).exitCode) ∧
    (∀ (d : String) (o : Oracles) (fs0 : FileSys) (root : String),
       (locate fs0 (getPossibleAfterEffectsPaths .win32)).2 = some root →
       fs0.existsSync (sourceScriptOf .win32 d) = true →
       (fs0.existsSync (destFolderOf .win32 root) = true ∨ o.mkdirOk = true) →
       ∃ pre rest, (run .win32 d o fs0).trace =
         pre ++ Ev.execCmd (elevatedCopyCommand (sourceScriptOf .win32 d)
           (destScriptOf .win32 root)) :: rest ∧
         (o.elevatedOk = true →
           rest = successLogs .win32 ∧ (run .win32 d o fs0).exitCode = 0) ∧
         (o.elevatedOk = false →
           ∃ rest2, rest = Ev.logOut "Elevated copy failed, trying normal copy..." :: rest2)) ∧
    (∀ (d : String) (o : Oracles) (fs0 : FileSys) (root : String),
       (locate fs0 (getPossibleAfterEffectsPaths .darwin)).2 = some root →
       fs0.existsSync (sourceScriptOf .darwin d) = true →
       (fs0.existsSync (destFolderOf .darwin root) = true ∨ o.mkdirOk = true) →
       o.directCopyOk = false →
       (∃ pre, (run .darwin d o fs0).trace =
          pre ++ Ev.execCmd (sudoCopyCommand (sourceScriptOf .darwin d)
            (destScriptOf .darwin root))
            :: (if o.sudoOk = true then successLogs .darwin
                else manualInstallErrs .darwin (sourceScriptOf .darwin d)
                  (destScriptOf .darwin root) o.copyErrMsg)) ∧
       ((run .darwin d o fs0).exitCode = 0 ↔ o.sudoOk = true)) := by
  refine ⟨?_, ?_, ?_⟩
  · rintro plat d fs0 ⟨a1, m1, a2, a3, a4, m2⟩ ⟨b1, n1, b2, b3, b4, n2⟩ h1 h2 h3 h4
    simp only at h1 h2 h3 h4
    subst h1
    subst h2
    subst h3
    subst h4
    rw [run_exitCode, run_exitCode]
    simp [fullSuccess, copySucceeds]
  · intro d o fs0 root hl hsrc hreach
    obtain ⟨pre, htr, hpre, hexit⟩ :=
      run_trace_copyStage .win32 d o fs0 root rfl hl hsrc hreach
    cases he : o.elevatedOk with
    | true =>
      have hshape := (copyPhase_win_rest o (sourceScriptOf .win32 d)
        (destScriptOf .win32 root) fs0).1 he
      refine ⟨pre ++ [Ev.logOut ("Installing bridge script to "
        ++ destScriptOf .win32 root ++ "...")], successLogs .win32, ?_, ?_, ?_⟩
      · rw [htr, hshape]
        simp
      · intro _
        refine ⟨rfl, ?_⟩
        rw [hexit, copyPhase_exitCode]
        simp [copySucceeds, he]
      · intro hcontra
        exact Bool.noConfusion hcontra
    | false =>
      obtain ⟨rest2, hshape⟩ := (copyPhase_win_rest o (sourceScriptOf .win32 d)
        (destScriptOf .win32 root) fs0).2 he
      refine ⟨pre ++ [Ev.logOut ("Installing bridge script to "
        ++ destScriptOf .win32 root ++ "...")],
        Ev.logOut "Elevated copy failed, trying normal copy..."
          :: Ev.copyFile (sourceScriptOf .win32 d) (destScriptOf .win32 root) :: rest2,
        ?_, ?_, ?_⟩
      · rw [htr, hshape]
        simp
      · intro hcontra
        exact Bool.noConfusion hcontra
      · intro _
        exact ⟨_, rfl⟩
  · intro d o fs0 root hl hsrc hreach hd
    obtain ⟨pre, htr, hpre, hexit⟩ :=
      run_trace_copyStage .darwin d o fs0 root rfl hl hsrc hreach
    have hshape := copyPhase_darwin_sudo_tail o (sourceScriptOf .darwin d)
      (destScriptOf .darwin root) fs0 hd
    constructor
    · refine ⟨pre ++ [Ev.logOut ("Installing bridge script to "
        ++ destScriptOf .darwin root ++ "..."),
        Ev.copyFile (sourceScriptOf .darwin d) (destScriptOf .darwin root),
        Ev.logErr "Normal copy failed. Trying with elevated privileges..."], ?_⟩
      rw [htr, hshape]
      simp
    · rw [hexit, copyPhase_exitCode]
      cases hs : o.sudoOk
      · simp [copySucceeds, hd, hs]
      · simp [copySucceeds, hd, hs]

/-- Witness for C2: two macOS oracle assignments differing only in
their error-message strings give the same exit code; a Windows run with
a successful elevated invocation exits 0 with the epilogue after the
invocation; a macOS run with failed direct copy and sudo exiting 0
exits 0. -/
theorem C2_elevated_copy_witness :
    ((run .darwin "/repo" ⟨true, "mA", true, false, false, "cA"⟩
        ⟨["/Applications/Adobe After Effects 2023"],
         [("/repo/build/scripts/mcp-bridge-auto.jsx", "P")]⟩).exitCode =
      (run .darwin "/repo" ⟨true, "mB", true, false, false, "cB"⟩
        ⟨["/Applications/Adobe After Effects 2023"],
         [("/repo/build/scripts/mcp-bridge-auto.jsx", "P")]⟩).exitCode) ∧
    (∃ pre rest, (run .win32 "C:\\repo" ⟨true, "m", true, true, true, "c"⟩
        ⟨["C:\\Program Files\\Adobe\\Adobe After Effects 2024"],
         [("C:\\repo\\build\\scripts\\mcp-bridge-auto.jsx", "P")]⟩).trace =
      pre ++ Ev.execCmd (elevatedCopyCommand (sourceScriptOf .win32 "C:\\repo")
        (destScriptOf .win32 "C:\\Program Files\\Adobe\\Adobe After Effects 2024")) :: rest) ∧
    ((run .darwin "/repo" ⟨true, "m", true, false, true, "c"⟩
        ⟨["/Applications/Adobe After Effects 2023"],
         [("/repo/build/scripts/mcp-bridge-auto.jsx", "P")]⟩).exitCode = 0) := by
  refine ⟨?_, ?_, ?_⟩
  · exact C2_elevated_copy_blocking_exit_status.1 .darwin "/repo"
      ⟨["/Applications/Adobe After Effects 2023"],
       [("/repo/build/scripts/mcp-bridge-auto.jsx", "P")]⟩
      ⟨true, "mA", true, false, false, "cA"⟩ ⟨true, "mB", true, false, false, "cB"⟩
      rfl rfl rfl rfl
  · obtain ⟨pre, rest, htr, _, _⟩ := C2_elevated_copy_blocking_exit_status.2.1 "C:\\repo"
      ⟨true, "m", true, true, true, "c"⟩
      ⟨["C:\\Program Files\\Adobe\\Adobe After Effects 2024"],
       [("C:\\repo\\build\\scripts\\mcp-bridge-auto.jsx", "P")]⟩
      "C:\\Program Files\\Adobe\\Adobe After Effects 2024"
      (by decide) (by decide) (Or.inr rfl)
    exact ⟨pre, rest, htr⟩
  · exact (C2_elevated_copy_blocking_exit_status.2.2 "/repo"
      ⟨true, "m", true, false, true, "c"⟩
      ⟨["/Applications/Adobe After Effects 2023"],
       [("/repo/build/scripts/mcp-bridge-auto.jsx", "P")]⟩
      "/Applications/Adobe After Effects 2023"
      (by decide) (by decide) (Or.inr rfl) rfl).2.mpr rfl

theorem locate_found_exists (fs : FileSys) (paths : List String) (r : String)
    (h : (locate fs paths).2 = some r) : fs.existsSync r = true := by
  obtain ⟨i, hi, hget, hex, _⟩ := locate_some_first fs paths r h
  exact hex

theorem run_copy_success (plat : Platform) (d : String) (o : Oracles) (fs0 : FileSys)
    (root c : String) (hsup : supported plat = true)
    (hl : (locate fs0 (getPossibleAfterEffectsPaths plat)).2 = some root)
    (hsrcc : fs0.readFile (sourceScriptOf plat d) = some c)
    (hreach : fs0.existsSync (destFolderOf plat root) = true ∨ o.mkdirOk = true)
    (hcopy : copySucceeds plat o = true) :
    (run plat d o fs0).exitCode = 0 ∧
    (run plat d o fs0).fsFinal.files = (destScriptOf plat root, c) :: fs0.files ∧
    ((run plat d o fs0).fsFinal.dirs = fs0.dirs ∨
     (run plat d o fs0).fsFinal.dirs =
       destFolderOf plat root :: ancestorJoins (sepChar plat) (destFolderOf plat root)
         ++ fs0.dirs) := by
  have hsrc : fs0.existsSync (sourceScriptOf plat d) = true :=
    existsSync_of_readFile _ _ _ hsrcc
  cases hdir0 : fs0.existsSync (destFolderOf plat root) with
  | true =>
    rw [run_eq_located plat d o fs0 root hsup hl, afterLocate_srcOk plat d o fs0 root hsrc,
      ensureDirAndCopy_dirExists plat o _ _ _ fs0 hdir0]
    refine ⟨by simp [copyPhase_exitCode, hcopy], ?_, Or.inl ?_⟩
    · rw [copyPhase_fsFinal_success _ _ _ _ _ hcopy,
        copyFileSync_files_of_read _ _ _ _ hsrcc]
    · rw [copyPhase_dirs]
  | false =>
    have hmk : o.mkdirOk = true := by
      rcases hreach with h | h
      · rw [hdir0] at h
        exact absurd h (by simp)
      · exact h
    rw [run_eq_located plat d o fs0 root hsup hl, afterLocate_srcOk plat d o fs0 root hsrc,
      ensureDirAndCopy_mkdir plat o _ _ _ fs0 hdir0 hmk]
    refine ⟨by simp [copyPhase_exitCode, hcopy], ?_, Or.inr ?_⟩
    · rw [copyPhase_fsFinal_success _ _ _ _ _ hcopy,
        copyFileSync_files_of_read _ _ _ _ (by rw [mkdirSync_readFile]; exact hsrcc),
        mkdirSync_files]
    · rw [copyPhase_dirs, mkdirSync_dirs]

theorem existsSync_extend (fs0 : FileSys) (ad : List String) (dS c : String) (p : String) :
    FileSys.existsSync ⟨ad ++ fs0.dirs, (dS, c) :: fs0.files⟩ p = true ↔
      p ∈ ad ∨ p = dS ∨ fs0.existsSync p = true := by
  rw [existsSync_iff, existsSync_iff]
  simp only [List.mem_append, List.mem_cons, Prod.mk.injEq]
  constructor
  · rintro ((h | h) | ⟨cc, (⟨h1, h2⟩ | hm)⟩)
    · exact Or.inl h
    · exact Or.inr (Or.inr (Or.inl h))
    · exact Or.inr (Or.inl h1)
    · exact Or.inr (Or.inr (Or.inr ⟨cc, hm⟩))
  · rintro (h | h | h | ⟨cc, hm⟩)
    · exact Or.inl (Or.inl h)
    · exact Or.inr ⟨c, Or.inl ⟨h, rfl⟩⟩
    · exact Or.inl (Or.inr h)
    · exact Or.inr ⟨cc, Or.inr hm⟩

theorem candidates_fresh_win :
    ∀ root ∈ getPossibleAfterEffectsPaths .win32, ∀ p ∈ getPossibleAfterEffectsPaths .win32,
      p ≠ root →
      (p ∉ destFolderOf .win32 root
          :: ancestorJoins (sepChar .win32) (destFolderOf .win32 root) ∧
       p ≠ destScriptOf .win32 root) := by decide

theorem candidates_fresh_darwin :
    ∀ root ∈ getPossibleAfterEffectsPaths .darwin, ∀ p ∈ getPossibleAfterEffectsPaths .darwin,
      p ≠ root →
      (p ∉ destFolderOf .darwin root
          :: ancestorJoins (sepChar .darwin) (destFolderOf .darwin root) ∧
       p ≠ destScriptOf .darwin root) := by decide

theorem locate_stable (plat : Platform) (fs0 : FileSys) (root c : String) (ad : List String)
    (hsup : supported plat = true)
    (hl : (locate fs0 (getPossibleAfterEffectsPaths plat)).2 = some root)
    (had : ad = [] ∨
      ad = destFolderOf plat root
        :: ancestorJoins (sepChar plat) (destFolderOf plat root)) :
    locate (⟨ad ++ fs0.dirs, (destScriptOf plat root, c) :: fs0.files⟩ : FileSys)
      (getPossibleAfterEffectsPaths plat) = locate fs0 (getPossibleAfterEffectsPaths plat) := by
  have hfresh : ∀ p ∈ getPossibleAfterEffectsPaths plat, p ≠ root →
      (p ∉ destFolderOf plat root :: ancestorJoins (sepChar plat) (destFolderOf plat root) ∧
       p ≠ destScriptOf plat root) := by
    have hroot_mem : root ∈ getPossibleAfterEffectsPaths plat := by
      obtain ⟨i, hi, hget, _, _⟩ := locate_some_first _ _ _ hl
      rw [← hget]
      exact List.get_mem _ i hi
    cases plat with
    | otherOS => simp [supported] at hsup
    | win32 => exact candidates_fresh_win root hroot_mem
    | darwin => exact candidates_fresh_darwin root hroot_mem
  apply locate_congr
  intro p hp
  cases hb : fs0.existsSync p with
  | true => exact (existsSync_extend fs0 ad _ c p).mpr (Or.inr (Or.inr hb))
  | false =>
    cases hb1 : FileSys.existsSync
        ⟨ad ++ fs0.dirs, (destScriptOf plat root, c) :: fs0.files⟩ p with
    | false => rfl
    | true =>
      exfalso
      have hpr : p ≠ root := by
        intro hpr
        rw [hpr, locate_found_exists fs0 _ root hl] at hb
        exact Bool.noConfusion hb
      obtain ⟨hnotin, hnds⟩ := hfresh p hp hpr
      rcases (existsSync_extend fs0 ad _ c p).mp hb1 with h | h | h
      · rcases had with rfl | rfl
        · exact List.not_mem_nil p h
        · exact hnotin h
      · exact hnds h
      · rw [h] at hb
        exact Bool.noConfusion hb

/-- C9: installation is idempotent and silently overwriting.  A
successful run writes the source content at the destination path,
overwriting whatever was there, and writes nothing anywhere else (no
backup); running the installer a second time on the resulting
filesystem again succeeds and again leaves the destination file's
content equal to the source artifact's content. -/
theorem C9_idempotent_overwrite :
    ∀ (plat : Platform) (d : String) (o : Oracles) (fs0 : FileSys) (root c : String),
      supported plat = true →
      (locate fs0 (getPossibleAfterEffectsPaths plat)).2 = some root →
      fs0.readFile (sourceScriptOf plat d) = some c →
      (fs0.existsSync (destFolderOf plat root) = true ∨ o.mkdirOk = true) →
      copySucceeds plat o = true →
      (run plat d o fs0).exitCode = 0 ∧
      (run plat d o fs0).fsFinal.readFile (destScriptOf plat root) = some c ∧
      (∀ q, q ≠ destScriptOf plat root →
        (run plat d o fs0).fsFinal.readFile q = fs0.readFile q) ∧
      (run plat d o ((run plat d o fs0).fsFinal)).exitCode = 0 ∧
      (run plat d o ((run plat d o fs0).fsFinal)).fsFinal.readFile
        (destScriptOf plat root) = some c := by
  intro plat d o fs0 root c hsup hl hsrcc hreach hcopy
  obtain ⟨hexit1, hfiles1, hdirs1⟩ :=
    run_copy_success plat d o fs0 root c hsup hl hsrcc hreach hcopy
  obtain ⟨ad, had, hdirs⟩ : ∃ ad,
      (ad = [] ∨
       ad = destFolderOf plat root
         :: ancestorJoins (sepChar plat) (destFolderOf plat root)) ∧
      (run plat d o fs0).fsFinal.dirs = ad ++ fs0.dirs := by
    rcases hdirs1 with h | h
    · exact ⟨[], Or.inl rfl, by rw [h, List.nil_append]⟩
    · exact ⟨_, Or.inr rfl, h⟩
  have hfs1eq : (run plat d o fs0).fsFinal =
      ⟨ad ++ fs0.dirs, (destScriptOf plat root, c) :: fs0.files⟩ := by
    rw [← hdirs, ← hfiles1]
  have hloc2 : (locate ((run plat d o fs0).fsFinal)
      (getPossibleAfterEffectsPaths plat)).2 = some root := by
    rw [hfs1eq, locate_stable plat fs0 root c ad hsup hl had]
    exact hl
  have hsrcc2 : ((run plat d o fs0).fsFinal).readFile (sourceScriptOf plat d) = some c := by
    show lookupFile ((run plat d o fs0).fsFinal).files (sourceScriptOf plat d) = some c
    rw [hfiles1]
    by_cases hqs : destScriptOf plat root = sourceScriptOf plat d
    · rw [hqs]
      exact lookupFile_cons_self _ _ _
    · rw [lookupFile_cons_ne _ _ _ _ hqs]
      exact hsrcc
  have hreach2 : ((run plat d o fs0).fsFinal).existsSync (destFolderOf plat root) = true ∨
      o.mkdirOk = true := by
    rcases hreach with h | h
    · left
      rw [hfs1eq]
      exact (existsSync_extend fs0 ad _ c _).mpr (Or.inr (Or.inr h))
    · right
      exact h
  obtain ⟨hexit2, hfiles2, _⟩ :=
    run_copy_success plat d o ((run plat d o fs0).fsFinal) root c hsup hloc2 hsrcc2
      hreach2 hcopy
  refine ⟨hexit1, ?_, ?_, hexit2, ?_⟩
  · show lookupFile ((run plat d o fs0).fsFinal).files (destScriptOf plat root) = some c
    rw [hfiles1]
    exact lookupFile_cons_self _ _ _
  · intro q hq
    show lookupFile ((run plat d o fs0).fsFinal).files q = fs0.readFile q
    rw [hfiles1, lookupFile_cons_ne _ _ _ _ (Ne.symm hq)]
    rfl
  · show lookupFile ((run plat d o ((run plat d o fs0).fsFinal)).fsFinal).files
      (destScriptOf plat root) = some c
    rw [hfiles2]
    exact lookupFile_cons_self _ _ _

/-- Witness for C9: a macOS run over a filesystem where the destination
file already holds stale content succeeds, overwrites it with the
source content, leaves an unrelated file untouched, and a second run on
the result also succeeds with the same final content. -/
theorem C9_idempotent_overwrite_witness :
    (run .darwin "/repo" ⟨true, "m", true, true, true, "c"⟩
       ⟨["/Applications/Adobe After Effects 2023",
         "/Applications/Adobe After Effects 2023/Scripts/ScriptUI Panels"],
        [("/repo/build/scripts/mcp-bridge-auto.jsx", "PAYLOAD"),
         ("/Applications/Adobe After Effects 2023/Scripts/ScriptUI Panels/mcp-bridge-auto.jsx",
          "STALE"),
         ("/other.txt", "OTHER")]⟩).exitCode = 0 ∧
    (run .darwin "/repo" ⟨true, "m", true, true, true, "c"⟩
       ⟨["/Applications/Adobe After Effects 2023",
         "/Applications/Adobe After Effects 2023/Scripts/ScriptUI Panels"],
        [("/repo/build/scripts/mcp-bridge-auto.jsx", "PAYLOAD"),
         ("/Applications/Adobe After Effects 2023/Scripts/ScriptUI Panels/mcp-bridge-auto.jsx",
          "STALE"),
         ("/other.txt", "OTHER")]⟩).fsFinal.readFile
      (destScriptOf .darwin "/Applications/Adobe After Effects 2023") = some "PAYLOAD" ∧
    (run .darwin "/repo" ⟨true, "m", true, true, true, "c"⟩
       ⟨["/Applications/Adobe After Effects 2023",
         "/Applications/Adobe After Effects 2023/Scripts/ScriptUI Panels"],
        [("/repo/build/scripts/mcp-bridge-auto.jsx", "PAYLOAD"),
         ("/Applications/Adobe After Effects 2023/Scripts/ScriptUI Panels/mcp-bridge-auto.jsx",
          "STALE"),
         ("/other.txt", "OTHER")]⟩).fsFinal.readFile "/other.txt" = some "OTHER" ∧
    (run .darwin "/repo" ⟨true, "m", true, true, true, "c"⟩
       ((run .darwin "/repo" ⟨true, "m", true, true, true, "c"⟩
         ⟨["/Applications/Adobe After Effects 2023",
           "/Applications/Adobe After Effects 2023/Scripts/ScriptUI Panels"],
          [("/repo/build/scripts/mcp-bridge-auto.jsx", "PAYLOAD"),
           ("/Applications/Adobe After Effects 2023/Scripts/ScriptUI Panels/mcp-bridge-auto.jsx",
            "STALE"),
           ("/other.txt", "OTHER")]⟩).fsFinal)).fsFinal.readFile
      (destScriptOf .darwin "/Applications/Adobe After Effects 2023") = some "PAYLOAD" := by
  have h := C9_idempotent_overwrite .darwin "/repo" ⟨true, "m", true, true, true, "c"⟩
    ⟨["/Applications/Adobe After Effects 2023",
      "/Applications/Adobe After Effects 2023/Scripts/ScriptUI Panels"],
     [("/repo/build/scripts/mcp-bridge-auto.jsx", "PAYLOAD"),
      ("/Applications/Adobe After Effects 2023/Scripts/ScriptUI Panels/mcp-bridge-auto.jsx",
       "STALE"),
      ("/other.txt", "OTHER")]⟩
    "/Applications/Adobe After Effects 2023" "PAYLOAD"
    rfl (by decide) (by decide) (Or.inl (by decide)) rfl
  exact ⟨h.1, h.2.1, (h.2.2.1 "/other.txt" (by decide)).trans (by decide),
    h.2.2.2.2⟩

end InstallBridge
